import Mathlib

/-!
Verification development for the TinyRDB storage core
(internal/storage: page.go, page_allocator.go, wal.go, wal_reader.go,
wal_record.go, database.go).

Shallow embedding conventions:
* Machine integers (uint8/uint32/uint64) are modelled as Nat; where Go
  arithmetic can overflow we take an explicit modulus (% 2^32 or % 2^64).
  Bytes on disk and in buffers are Nat values (0..255 in any run produced
  by the code itself; the decoder is total on arbitrary Nat lists).
* Go maps are modelled as association lists (List (Nat × _)); Go map
  iteration order is unspecified, the association-list order is used and
  every claim settled below is insensitive to that order (noted at the
  relevant definitions).
* PageData in Go is a pointer to a fixed 4090-byte array.  We model the
  set of live backing arrays as a heap (List (Nat × Node)) keyed by an
  allocation counter, so that Go slice aliasing (a slice of a page array
  sees later in-place mutations of that array) is represented faithfully.
* File contents are byte lists carried in the state; all I/O in the model
  is total (the filesystem never fails).  A Go nil-pointer dereference
  (a runtime panic) is modelled as an explicit error value.
-/

namespace TinyRDB

/-- Source: page.go, DefaultPageSize = 4096. -/
def DefaultPageSize : Nat := 4096

/-- Source: page.go, PageHeaderSize = 6. -/
def PageHeaderSize : Nat := 6

/-- Body size of a page: DefaultPageSize - PageHeaderSize = 4090 bytes.
Go type PageData is a pointer to an array of this length. -/
def pageBodySize : Nat := DefaultPageSize - PageHeaderSize

/-- A page body: the contents of one fixed 4090-byte backing array,
modelled as a function from index to byte.  Only indices below
pageBodySize are ever read by the code. -/
def PageBody := Nat → Nat

/-- The body bytes as a list, in index order (used for checksums,
mirroring crc32.ChecksumIEEE(data[:]) over the whole array). -/
def pageBytes (b : PageBody) : List Nat :=
  (List.range pageBodySize).map b

/-- Point update of a backing array: data[i] = v. -/
def setByte (b : PageBody) (i v : Nat) : PageBody :=
  fun j => if j = i then v else b j

/-- Sequential byte-wise region write, mirroring Go's
for i, b := range newData { data[offset+i] = b }. -/
def writeRegion (b : PageBody) (offset : Nat) : List Nat → PageBody
  | [] => b
  | v :: vs => writeRegion (setByte b offset v) (offset + 1) vs

/-- Region read data[offset : offset+len] as a byte list (the bytes a Go
sub-slice of the array denotes at observation time). -/
def regionRead (b : PageBody) (offset len : Nat) : List Nat :=
  (List.range len).map (fun i => b (offset + i))

/-! ### Little-endian integer encoding (encoding/binary, LittleEndian) -/

/-- k little-endian bytes of n (AppendUint64 is leBytes 8, AppendUint32 is
leBytes 4; for in-range n these are exactly the bytes Go writes). -/
def leBytes : Nat → Nat → List Nat
  | 0, _ => []
  | k + 1, n => n % 256 :: leBytes k (n / 256)

/-- Little-endian value of a byte list (what binary.Read reconstructs). -/
def leVal : List Nat → Nat
  | [] => 0
  | b :: bs => b % 256 + 256 * leVal bs

/-! ### CRC32 (hash/crc32, ChecksumIEEE: reflected polynomial 0xEDB88320) -/

def crc32Poly : Nat := 0xEDB88320

/-- One bit-step of the reflected CRC32 algorithm. -/
def crcRound (c : Nat) : Nat :=
  if c % 2 = 1 then (c / 2) ^^^ crc32Poly else c / 2

/-- k bit-steps. -/
def crcRounds : Nat → Nat → Nat
  | 0, c => c
  | k + 1, c => crcRounds k (crcRound c)

def crc32Aux : Nat → List Nat → Nat
  | c, [] => c
  | c, b :: bs => crc32Aux (crcRounds 8 (c ^^^ (b % 256))) bs

/-- crc32.ChecksumIEEE over a byte list.  Source: wal_record.go
getChecksumFromBytes and page.go getChecksum both delegate to it. -/
def crc32 (bs : List Nat) : Nat :=
  crc32Aux 0xFFFFFFFF bs ^^^ 0xFFFFFFFF

/-! ### Page allocator (page.go, page_allocator.go) -/

/-- Source: page.go PageHeader (version, type, checksum). -/
structure PageHeader where
  pageVersion : Nat
  pageType : Nat
  checksum : Nat

/-- One page as stored in the data file: 6-byte header plus body. -/
structure DiscPage where
  header : PageHeader
  body : PageBody

/-- The data file, as a total map from page id to stored page.  I/O is
total in the model: every positional read and write succeeds. -/
def Disc := Nat → DiscPage

/-- Source: page.go getChecksum(data PageData) = CRC32 over the body. -/
def getChecksum (data : PageBody) : Nat := crc32 (pageBytes data)

/-- Model error values.  checksumMismatch carries exactly the two
integers Go's fmt.Errorf("Checksum Mismatch %d against %d", ...) embeds
(the stored header checksum and the recomputed one); the page id is not
part of the error.  nilPointerPanic models a Go runtime nil-dereference
panic as an explicit error value. -/
inductive DBErr where
  | checksumMismatch (expected found : Nat)
  | outOfBounds (pageId : Nat)
  | pageNotFound (pageId : Nat)
  | nilPointerPanic
deriving DecidableEq

/-- Source: page_allocator.go ReadPageHeader. -/
def readPageHeader (disc : Disc) (id : Nat) : PageHeader :=
  (disc id).header

/-- Source: page_allocator.go ReadPageData: read the body bytes, read the
header, recompute the CRC of the body, compare with the stored header
CRC; on mismatch return the (already read) data together with the
mismatch error.  Mirrors the Go multi-value return (data, err). -/
def readPageData (disc : Disc) (id : Nat) : PageBody × Option DBErr :=
  let data := (disc id).body
  let header := readPageHeader disc id
  let checksum := getChecksum data
  if header.checksum = checksum then (data, none)
  else (data, some (DBErr.checksumMismatch header.checksum checksum))

/-- Source: page_allocator.go WritePageData: write the body bytes, then
update the header checksum to the CRC of the new body.  Version and type
bytes are untouched. -/
def writePageData (disc : Disc) (id : Nat) (data : PageBody) : Disc :=
  fun j =>
    if j = id then
      { header := { (disc id).header with checksum := getChecksum data }
        body := data }
    else disc j

/-! ### WAL record (wal_record.go) -/

/-- Source: wal_record.go PageEntry.  oldData and newData here are the
byte values observed when the record is materialised (decoded from the
log, or serialised to it). -/
structure PageEntry where
  pageId : Nat
  offset : Nat
  length : Nat
  oldData : List Nat
  newData : List Nat
deriving DecidableEq

/-- Source: wal_record.go Transaction = header (transactionId, pageCount),
body, end (transactionId, checksum). -/
structure Transaction where
  transactionId : Nat
  pageCount : Nat
  body : List PageEntry
  endTransactionId : Nat
  endChecksum : Nat
deriving DecidableEq

/-- Byte serialisation of one page entry, per the record layout used by
AppendTransaction (wal.go) and getTransaction (wal_reader.go). -/
def serEntry (e : PageEntry) : List Nat :=
  leBytes 8 e.pageId ++ leBytes 4 e.offset ++ leBytes 4 e.length ++
    e.oldData ++ e.newData

def serBody (body : List PageEntry) : List Nat :=
  (body.map serEntry).flatten

/-- The bytes Transaction.checkSum (wal_record.go) hashes: header id,
page count, body entries, and the header id a second time (the Go code
reuses Header.transactionId for the trailing id, not End.TransactionId). -/
def checkSumData (t : Transaction) : List Nat :=
  leBytes 8 t.transactionId ++ leBytes 4 t.pageCount ++ serBody t.body ++
    leBytes 8 t.transactionId

/-- Transaction.checkSum returns true iff the stored End.Checksum equals
the recomputed CRC32. -/
def checkSumOk (t : Transaction) : Prop :=
  t.endChecksum = crc32 (checkSumData t)

instance (t : Transaction) : Decidable (checkSumOk t) := by
  unfold checkSumOk; infer_instance

/-- Full on-disk bytes of one transaction record. -/
def serTransaction (t : Transaction) : List Nat :=
  leBytes 8 t.transactionId ++ leBytes 4 t.pageCount ++ serBody t.body ++
    leBytes 8 t.endTransactionId ++ leBytes 4 t.endChecksum

/-! ### WAL reader (wal_reader.go) -/

/-- binary.Read of a k-byte little-endian integer from the stream:
succeeds iff k bytes remain. -/
def readNum (k : Nat) (bs : List Nat) : Option (Nat × List Nat) :=
  if k ≤ bs.length then some (leVal (bs.take k), bs.drop k) else none

/-- binary.Read into a k-byte buffer. -/
def readData (k : Nat) (bs : List Nat) : Option (List Nat × List Nat) :=
  if k ≤ bs.length then some (bs.take k, bs.drop k) else none

/-- The page-entry loop of WalReader.getTransaction: read pageCount
entries (page id, offset, length, length bytes old, length bytes new). -/
def decodeEntries : Nat → List Nat → Option (List PageEntry × List Nat)
  | 0, bs => some ([], bs)
  | n + 1, bs => do
    let (pid, bs) ← readNum 8 bs
    let (off, bs) ← readNum 4 bs
    let (len, bs) ← readNum 4 bs
    let (old, bs) ← readData len bs
    let (new, bs) ← readData len bs
    let (rest, bs) ← decodeEntries n bs
    some (⟨pid, off, len, old, new⟩ :: rest, bs)

/-- WalReader.getTransaction: decode one record from the head of the
stream; none models any read failure (EOF at a field start, short read
mid-field, or a length field demanding more bytes than remain). -/
def decodeTransaction (bs : List Nat) : Option (Transaction × List Nat) := do
  let (hid, bs) ← readNum 8 bs
  let (pc, bs) ← readNum 4 bs
  let (entries, bs) ← decodeEntries pc bs
  let (eid, bs) ← readNum 8 bs
  let (crc, bs) ← readNum 4 bs
  some (⟨hid, pc, entries, eid, crc⟩, bs)

/-- Field ranges and internal consistency of a record as produced by the
serialiser: the Go struct fields are fixed-width machine integers and
the data slices have the length the length field promises. -/
def wfEntry (e : PageEntry) : Prop :=
  e.pageId < 2 ^ 64 ∧ e.offset < 2 ^ 32 ∧ e.length < 2 ^ 32 ∧
    e.oldData.length = e.length ∧ e.newData.length = e.length

def wfTransaction (t : Transaction) : Prop :=
  t.transactionId < 2 ^ 64 ∧ t.pageCount < 2 ^ 32 ∧
    t.pageCount = t.body.length ∧ t.endTransactionId < 2 ^ 64 ∧
    t.endChecksum < 2 ^ 32 ∧ ∀ e ∈ t.body, wfEntry e

/-! ### Decoder round-trip lemmas -/

/-! ### Association-list maps (model of Go maps; see the header note on
iteration order) -/

def alookup {α : Type} : List (Nat × α) → Nat → Option α
  | [], _ => none
  | (k, v) :: rest, key => if k = key then some v else alookup rest key

/-- Append v to the list stored under pid, creating the key if absent
(Go: if m[pid] == nil { m[pid] = make(...) }; m[pid] = append(m[pid], v)). -/
def upsertAppend {α : Type} :
    List (Nat × List α) → Nat → α → List (Nat × List α)
  | [], pid, v => [(pid, [v])]
  | (k, vs) :: rest, pid, v =>
    if k = pid then (k, vs ++ [v]) :: rest
    else (k, vs) :: upsertAppend rest pid v

/-! ### Write-ahead log (wal.go) -/

/-- Source: wal.go WriteAheadLog.  The file handle is modelled by the
log file's current byte contents. -/
structure WalState where
  cache : List (Nat × List Transaction)
  nextTransactionId : Nat
  fileSize : Nat
  file : List Nat
deriving DecidableEq

/-- Source: wal.go addCache: for each body entry of the transaction,
append the transaction to the per-page list of that entry's page id. -/
def addCache (c : List (Nat × List Transaction)) (t : Transaction) :
    List (Nat × List Transaction) :=
  t.body.foldl (fun acc e => upsertAppend acc e.pageId t) c

/-- The recovery loop inside wal.go Initialize.  fuel bounds the number
of loop iterations; any fuel of at least one plus the number of whole
records in the file yields the loop's result (each successful decode
consumes at least 24 bytes).  orig is the file content at open time,
pos the byte offset recorded before each decode attempt
(walReader.bytesRead); on a failed decode the file is truncated at pos.
A record that decodes but fails its checksum is skipped: it is not
cached and fileSize is not advanced past it. -/
def walRecover : Nat → List Nat → Nat → WalState → WalState
  | 0, _, _, st => st
  | fuel + 1, orig, pos, st =>
    match decodeTransaction (orig.drop pos) with
    | none => { st with file := orig.take pos }
    | some (t, rest) =>
      let pos' := pos + ((orig.drop pos).length - rest.length)
      let st' :=
        if checkSumOk t then
          { st with cache := addCache st.cache t, fileSize := pos' }
        else st
      walRecover fuel orig pos' st'

/-- Source: wal.go Initialize: open the file (its bytes become the log),
refreshCache (the in-memory cache map is replaced by an empty one), then
run the recovery loop from offset 0.  The struct fields
nextTransactionId and fileSize are NOT assigned here: they keep whatever
value the receiver already held (fileSize is only advanced inside the
loop when a checksum-valid record is decoded). -/
def walInitialize (prev : WalState) (fileBytes : List Nat) : WalState :=
  walRecover (fileBytes.length + 1) fileBytes 0
    { prev with cache := [], file := fileBytes }

/-- Source: wal.go clearFromDisc: close the log file, remove it, then
Initialize on the now-absent name, which creates an empty file. -/
def clearFromDisc (w : WalState) : WalState :=
  walInitialize w []

/-- Bytes of a sequence of records laid end to end. -/
def serFile (ts : List Transaction) : List Nat :=
  (ts.map serTransaction).flatten

/-! ### Database manager (database.go)

PageData values in Go are pointers to 4090-byte arrays.  The manager's
cache entries, the deltas' OldData sub-slices and the per-page map all
share those arrays, so the model keeps an explicit heap of backing
arrays (nodes), keyed by an allocation counter.  Nodes are never removed
from the heap: in Go an evicted entry's array stays reachable through
any slice that still refers to it. -/

/-- Source: database.go CacheEntry {data, next, prev}.  next and prev
are pointers, modelled as optional heap keys. -/
structure Node where
  data : PageBody
  next : Option Nat
  prev : Option Nat

/-- Source: database.go PageDelta. -/
structure PageDelta where
  pageId : Nat
  offset : Nat
  newData : List Nat

/-- A PageEntry as it exists inside WritePages before the WAL append:
OldData is a live sub-slice of the cached page's backing array
(body.OldData = data[offset : Length+offset] in the source), so it is
represented by the heap key of that array; its bytes are read out only
when the record is serialised or the cached value observed. -/
structure PendingEntry where
  pageId : Nat
  offset : Nat
  length : Nat
  oldRef : Nat
  newData : List Nat

/-- The transaction value WritePages builds (Transaction{} followed by
MakeTransaction: header and end fields stay zero until serialisation,
which uses the WAL's nextTransactionId, not these fields). -/
structure PendingTxn where
  transactionId : Nat
  pageCount : Nat
  body : List PendingEntry
  endTransactionId : Nat
  endChecksum : Nat

/-- Heap read; only ever applied to live allocation ids (a dead id would
be a dangling pointer in Go). -/
def nodeGet (nodes : List (Nat × Node)) (nid : Nat) : Node :=
  (alookup nodes nid).getD ⟨fun _ => 0, none, none⟩

/-- In-place update of one heap node. -/
def updNode : List (Nat × Node) → Nat → (Node → Node) → List (Nat × Node)
  | [], _, _ => []
  | (k, nd) :: rest, nid, f =>
    if k = nid then (k, f nd) :: rest else (k, nd) :: updNode rest nid f

/-- Go map assignment m[p] = n (overwrite or insert). -/
def dbInsert : List (Nat × Nat) → Nat → Nat → List (Nat × Nat)
  | [], p, n => [(p, n)]
  | (k, v) :: rest, p, n =>
    if k = p then (k, n) :: rest else (k, v) :: dbInsert rest p n

/-- removeTail's map scan: delete the binding whose value is the tail
node (Go iterates the map and breaks at the first hit; node ids in the
map are pairwise distinct, so which order the map is walked in cannot
change the outcome). -/
def dbDeleteByVal : List (Nat × Nat) → Nat → List (Nat × Nat)
  | [], _ => []
  | (k, v) :: rest, n =>
    if v = n then rest else (k, v) :: dbDeleteByVal rest n

/-- Source: database.go DatabaseManager.  The allocator's data file is
the disc component; test flag omitted (never read by the modelled
operations). -/
structure DBState where
  disc : Disc
  nodes : List (Nat × Node)
  nextNodeId : Nat
  db : List (Nat × Nat)
  head : Option Nat
  tail : Option Nat
  wal : WalState
  cacheCapacityPages : Nat
  checkpointSizeThreshold : Nat

/-- Source: database.go removeTail.  The Go code deletes the map entry
before reading tail.next; the deletion touches only the map, so the
read is the same either way. -/
def removeTail (s : DBState) : DBState :=
  match s.tail with
  | none => s
  | some tl =>
    match (nodeGet s.nodes tl).next with
    | some nxt =>
      { s with db := dbDeleteByVal s.db tl, tail := some nxt,
               nodes := updNode s.nodes nxt (fun nd => { nd with prev := none }) }
    | none => { s with db := dbDeleteByVal s.db tl, head := none, tail := none }

/-- Source: database.go addCacheData: evict the tail first when the map
is at capacity, then link a fresh entry {data, next=nil, prev=old head}
in front of the old head. -/
def addCacheData (s : DBState) (data : PageBody) (pageId : Nat) : DBState :=
  let s1 := if s.cacheCapacityPages ≤ s.db.length then removeTail s else s
  let nid := s1.nextNodeId
  let newNode : Node := ⟨data, none, s1.head⟩
  let s2 :=
    match s1.head with
    | some h =>
      { s1 with nodes := updNode s1.nodes h (fun nd => { nd with next := some nid }) }
    | none => { s1 with tail := some nid }
  { s2 with nodes := s2.nodes ++ [(nid, newNode)],
            db := dbInsert s2.db pageId nid,
            head := some nid,
            nextNodeId := nid + 1 }

/-- Source: database.go makeHead, statement by statement; every pointer
field is re-read from the current state exactly where the Go statement
reads it.  Note the source never updates tail here, even when the
promoted entry is the current tail. -/
def makeHead (s : DBState) (pageId : Nat) : DBState :=
  match alookup s.db pageId with
  | none => s
  | some e =>
    let s1 :=
      match (nodeGet s.nodes e).next with
      | some nx =>
        let f1 := fun (nd : Node) => { nd with prev := (nodeGet s.nodes e).prev }
        { s with nodes := updNode s.nodes nx f1 }
      | none => s
    let s2 :=
      match (nodeGet s1.nodes e).prev with
      | some pv =>
        let f2 := fun (nd : Node) => { nd with next := (nodeGet s1.nodes e).next }
        { s1 with nodes := updNode s1.nodes pv f2 }
      | none => s1
    let f3 := fun (nd : Node) => { nd with prev := s2.head }
    let s3 := { s2 with nodes := updNode s2.nodes e f3 }
    let f4 := fun (nd : Node) => { nd with next := none }
    let s4 := { s3 with nodes := updNode s3.nodes e f4 }
    { s4 with head := some e }

/-- One overlay step of loadPageFromDisc's inner loop: entries for other
pages are skipped, matching entries have their newData written at their
offset. -/
def overlayEntry (data : PageBody) (pageId : Nat) (e : PageEntry) : PageBody :=
  if e.pageId = pageId then writeRegion data e.offset e.newData else data

def overlayTxn (data : PageBody) (pageId : Nat) (t : Transaction) : PageBody :=
  t.body.foldl (fun d e => overlayEntry d pageId e) data

def overlayTxns (data : PageBody) (pageId : Nat) (ts : List Transaction) :
    PageBody :=
  ts.foldl (fun d t => overlayTxn d pageId t) data

/-- Source: database.go loadPageFromDisc: read via the allocator; on a
read error return the bytes as read together with the error (no
overlay); otherwise overlay every cached transaction for this page, in
log order. -/
def loadPageFromDisc (s : DBState) (pageId : Nat) : PageBody × Option DBErr :=
  let (data, err) := readPageData s.disc pageId
  match err with
  | some e => (data, some e)
  | none =>
    match alookup s.wal.cache pageId with
    | none => (data, none)
    | some entries => (overlayTxns data pageId entries, none)

/-- Source: database.go GetPage: on a hit promote and return the entry's
array; on a miss load from disc and insert into the cache whether or not
the load reported an error, then return the loaded bytes and the error. -/
def getPage (s : DBState) (pageId : Nat) : DBState × PageBody × Option DBErr :=
  match alookup s.db pageId with
  | some e => (makeHead s pageId, (nodeGet s.nodes e).data, none)
  | none =>
    let (data, err) := loadPageFromDisc s pageId
    (addCacheData s data pageId, data, err)

/-- Source: database.go applyDelta: in-place region write on the cached
page's backing array, after presence and bounds checks. -/
def applyDelta (s : DBState) (change : PageDelta) : DBState × Option DBErr :=
  match alookup s.db change.pageId with
  | none => (s, some (DBErr.pageNotFound change.pageId))
  | some e =>
    if pageBodySize < change.offset + change.newData.length then
      (s, some (DBErr.outOfBounds change.pageId))
    else
      let f := fun (nd : Node) =>
        { nd with data := writeRegion nd.data change.offset change.newData }
      ({ s with nodes := updNode s.nodes e f }, none)

/-- The bytes of the OldData slice at serialisation time: a live view of
the backing array the delta's page had when the transaction was built. -/
def materializeEntry (nodes : List (Nat × Node)) (e : PendingEntry) :
    PageEntry :=
  ⟨e.pageId, e.offset, e.length,
    regionRead (nodeGet nodes e.oldRef).data e.offset e.length, e.newData⟩

def materializeTxn (nodes : List (Nat × Node)) (t : PendingTxn) :
    Transaction :=
  ⟨t.transactionId, t.pageCount, t.body.map (materializeEntry nodes),
    t.endTransactionId, t.endChecksum⟩

/-- Source: wal.go AppendTransaction.  The serialised record carries the
WAL's nextTransactionId in header and footer positions and a CRC32 over
all preceding record bytes.  addCache(transaction) is invoked inside the
per-entry serialisation loop — once per body entry — and each invocation
walks all body entries again; the write to the log file happens after
those cache updates.  Returns the state and the assigned id (the file
write is total in the model, so the error result is always nil). -/
def appendTransaction (w : WalState) (nodes : List (Nat × Node))
    (t : PendingTxn) : WalState × Nat :=
  let mat := materializeTxn nodes t
  let payload := leBytes 8 w.nextTransactionId ++ leBytes 4 t.pageCount ++
    serBody mat.body ++ leBytes 8 w.nextTransactionId
  let record := payload ++ leBytes 4 (crc32 payload)
  let c := t.body.foldl (fun acc _ => addCache acc mat) w.cache
  ({ w with cache := c,
            file := w.file ++ record,
            nextTransactionId := w.nextTransactionId + 1,
            fileSize := w.fileSize + record.length },
   w.nextTransactionId)

/-- The loop body of database.go flushCheckpoint.  The source reads
entry.data before testing the map-lookup ok flag, so a page id present
in the WAL cache but absent from the LRU map dereferences a nil pointer:
modelled as the nilPointerPanic error.  The if !ok reload-from-disc
branch below that line is unreachable.  On normal completion the WAL is
cleared from disc. -/
def flushLoop (s : DBState) :
    List (Nat × List Transaction) → DBState × Option DBErr
  | [] => ({ s with wal := clearFromDisc s.wal }, none)
  | (pid, _) :: rest =>
    match alookup s.db pid with
    | none => (s, some DBErr.nilPointerPanic)
    | some e =>
      flushLoop { s with disc := writePageData s.disc pid (nodeGet s.nodes e).data } rest

/-- Source: database.go flushCheckpoint. -/
def flushCheckpoint (s : DBState) : DBState × Option DBErr :=
  flushLoop s s.wal.cache

/-- Source: database.go checkpointTrigger. -/
def checkpointTrigger (s : DBState) : DBState × Option DBErr :=
  if s.checkpointSizeThreshold ≤ s.wal.fileSize then flushCheckpoint s
  else (s, none)

/-- The per-delta half of WritePages' first loop: ensure the page is
cached (fault from disc on a miss, promote on a hit), bounds-check, and
record the pending entry whose OldData slice views the cached array.
Returns the state, the accumulated entries, and the first error. -/
def buildLoop (s : DBState) (acc : List PendingEntry) :
    List PageDelta → DBState × List PendingEntry × Option DBErr
  | [] => (s, acc, none)
  | d :: rest =>
    match alookup s.db d.pageId with
    | none =>
      let (discData, err) := loadPageFromDisc s d.pageId
      let nid := (if s.cacheCapacityPages ≤ s.db.length then removeTail s else s).nextNodeId
      let s1 := addCacheData s discData d.pageId
      match err with
      | some e => (s1, acc, some e)
      | none =>
        if pageBodySize < d.offset + d.newData.length then
          (s1, acc, some (DBErr.outOfBounds d.pageId))
        else
          buildLoop s1
            (acc ++ [⟨d.pageId, d.offset, d.newData.length % 2 ^ 32, nid,
              d.newData⟩]) rest
    | some e =>
      let s1 := makeHead s d.pageId
      if pageBodySize < d.offset + d.newData.length then
        (s1, acc, some (DBErr.outOfBounds d.pageId))
      else
        buildLoop s1
          (acc ++ [⟨d.pageId, d.offset, d.newData.length % 2 ^ 32, e,
            d.newData⟩]) rest

/-- WritePages' second loop: apply every delta in place; the source
discards applyDelta's error result. -/
def applyLoop (s : DBState) : List PageDelta → DBState
  | [] => s
  | d :: rest => applyLoop (applyDelta s d).1 rest

/-- Source: database.go WritePages: maybe checkpoint, build the
transaction (faulting pages in as needed), apply the deltas in memory,
then append the transaction to the WAL.  Returns (state, transaction id,
error); the id is 0 on every error path, as in the source. -/
def writePages (s : DBState) (changes : List PageDelta) :
    DBState × Nat × Option DBErr :=
  match checkpointTrigger s with
  | (s0, some e) => (s0, 0, some e)
  | (s0, none) =>
    match buildLoop s0 [] changes with
    | (s1, _, some e) => (s1, 0, some e)
    | (s1, entries, none) =>
      let s2 := applyLoop s1 changes
      let t : PendingTxn := ⟨0, changes.length % 2 ^ 32, entries, 0, 0⟩
      let (w, tid) := appendTransaction s2.wal s2.nodes t
      ({ s2 with wal := w }, tid, none)

instance (e : PageEntry) : Decidable (wfEntry e) := by
  unfold wfEntry; infer_instance

instance (t : Transaction) : Decidable (wfTransaction t) := by
  unfold wfTransaction; infer_instance

/-! ### Concrete inputs used by witnesses and counterexamples -/

def zeroBody : PageBody := fun _ => 0

/-- A data file on which every page is zero-filled and carries a valid
checksum. -/
def goodDisc : Disc := fun _ => ⟨⟨0, 1, getChecksum zeroBody⟩, zeroBody⟩

/-- A data file on which every page bears a wrong stored checksum (one
above the value recomputed from the body). -/
def badDisc : Disc := fun _ => ⟨⟨0, 1, Nat.succ (getChecksum zeroBody)⟩, zeroBody⟩

/-- Page 1 of this disc holds bytes 1,2,3,4 at offsets 0..3 (valid
checksums everywhere). -/
def bodyC1 : PageBody := fun i => if i < 4 then i + 1 else 0

def discC1 : Disc := fun j =>
  if j = 1 then ⟨⟨0, 1, getChecksum bodyC1⟩, bodyC1⟩
  else ⟨⟨0, 1, getChecksum zeroBody⟩, zeroBody⟩

/-- The zero-valued WriteAheadLog struct of a fresh process after
Initialize on an empty log file. -/
def emptyWal : WalState := ⟨[], 0, 0, []⟩

/-- A manager as after Initialize on empty files with the given
checkpoint threshold and cache capacity. -/
def freshState (d : Disc) (threshold capacity : Nat) : DBState :=
  ⟨d, [], 0, [], none, none, emptyWal, capacity, threshold⟩

/-- A one-entry transaction with a valid checksum (base value, then the
checksum filled in; checkSumData does not read endChecksum). -/
def txnBase : Transaction := ⟨0, 1, [⟨42, 10, 4, [1, 2, 3, 4], [5, 6, 7, 8]⟩], 0, 0⟩

def txnGood : Transaction := { txnBase with endChecksum := crc32 (checkSumData txnBase) }

/-- A WAL whose in-memory state says five transactions were already
assigned (as after five appends). -/
def walAt5 : WalState := ⟨[], 5, 0, []⟩

def nodeZ : Node := ⟨zeroBody, none, none⟩

/-- A two-entry transaction touching pages 1 and 2, as built by
WritePages (old-data references into a two-node heap). -/
def pendC6 : PendingTxn := ⟨0, 2, [⟨1, 0, 1, 0, [9]⟩, ⟨2, 0, 1, 1, [8]⟩], 0, 0⟩

def heapC6 : List (Nat × Node) := [(0, nodeZ), (1, nodeZ)]

/-- A manager whose WAL cache mentions page 1 while the LRU map is
empty: the state of a process that recovered a WAL from disk (the WAL
cache is repopulated on Initialize) before any page was faulted into
the LRU cache. -/
def stateC3 : DBState :=
  { freshState goodDisc 10000 32000 with wal := ⟨[(1, [txnGood])], 1, 40, []⟩ }

/-- One full-body write to page p (4090 bytes of 7). -/
def deltaFull (p : Nat) : PageDelta := ⟨p, 0, List.replicate 4090 7⟩

def burstStep (s : DBState) (p : Nat) : DBState := (writePages s [deltaFull p]).1

/-- Scenario D burst: n full-page writes to pages 1..n, checkpoint
threshold 10000, capacity 32000, starting from fresh files. -/
def burst : Nat → DBState
  | 0 => freshState goodDisc 10000 32000
  | n + 1 => burstStep (burst n) (n + 1)

/-- Invariant carried along the burst: every disc page checksums
correctly, every WAL-cached page id is LRU-resident, pages above n are
untouched, the recorded fileSize grows by 8220 (one full-page record)
per write and is never reset, the LRU holds at most n pages, and the log
file's true byte length matches the recorded size only until the first
checkpoint (from the third write on, the rotated log holds exactly the
one record appended after the flush). -/
def BInv (n : Nat) (s : DBState) : Prop :=
  (∀ q, (s.disc q).header.checksum = getChecksum ((s.disc q).body)) ∧
  (∀ pc ∈ s.wal.cache, (alookup s.db pc.1).isSome = true) ∧
  (∀ k, n < k → alookup s.db k = none) ∧
  (∀ k, n < k → alookup s.wal.cache k = none) ∧
  s.wal.fileSize = 8220 * n ∧
  s.db.length ≤ n ∧
  s.cacheCapacityPages = 32000 ∧
  s.checkpointSizeThreshold = 10000 ∧
  s.wal.file.length = (if n ≤ 2 then 8220 * n else 8220)

/-- GetPage for its cache side effect. -/
def touch (s : DBState) (p : Nat) : DBState := (getPage s p).1

/-- Capacity-2 manager after GetPage on 7, 1, then the touch sequence
1, 2, 3 (three distinct pages, more than capacity). -/
def stateC8 : DBState :=
  touch (touch (touch (touch (touch (freshState goodDisc 10000 2) 7) 1) 1) 2) 3

def deltaC1 : PageDelta := ⟨1, 0, [5, 6, 7, 8]⟩

def runC1 : DBState × Nat × Option DBErr :=
  writePages (freshState discC1 10000 32000) [deltaC1]

/-- The checksummed payload of the one record runC1 appends: header id 0,
page count 1, one entry whose old-data and new-data bytes are both the
post-change bytes, footer id 0. -/
def payloadC1 : List Nat :=
  leBytes 8 0 ++ leBytes 4 1 ++
    serBody [⟨1, 0, 4, [5, 6, 7, 8], [5, 6, 7, 8]⟩] ++ leBytes 8 0

/-- The transaction record runC1 appends, as it decodes back from the
log file. -/
def matC1 : Transaction :=
  ⟨0, 1, [⟨1, 0, 4, [5, 6, 7, 8], [5, 6, 7, 8]⟩], 0, crc32 payloadC1⟩

/-! ### Helper lemmas -/

@[simp] theorem regionRead_length (b : PageBody) (o l : Nat) :
    (regionRead b o l).length = l := by
  simp [regionRead]

@[simp] theorem leBytes_length (k n : Nat) : (leBytes k n).length = k := by
  induction k generalizing n with
  | zero => rfl
  | succ k ih => simp [leBytes, ih]

theorem leVal_leBytes (k n : Nat) : leVal (leBytes k n) = n % 256 ^ k := by
  induction k generalizing n with
  | zero => simp [leBytes, leVal, Nat.mod_one]
  | succ k ih =>
    have h1 : n % 256 ^ (k + 1) % 256 = n % 256 := by
      apply Nat.mod_mod_of_dvd
      exact ⟨256 ^ k, by rw [pow_succ, Nat.mul_comm]⟩
    have h2 : n % 256 ^ (k + 1) / 256 = n / 256 % 256 ^ k := by
      rw [pow_succ', Nat.mod_mul_right_div_self]
    have h3 : 256 * (n % 256 ^ (k + 1) / 256) + n % 256 ^ (k + 1) % 256
        = n % 256 ^ (k + 1) := Nat.div_add_mod _ 256
    simp only [leBytes, leVal, ih, Nat.mod_mod_of_dvd _ (dvd_refl 256)]
    omega

theorem readNum_of_append (k n : Nat) (r : List Nat) (h : n < 256 ^ k) :
    readNum k (leBytes k n ++ r) = some (n, r) := by
  have hl : (leBytes k n).length = k := leBytes_length k n
  unfold readNum
  rw [if_pos (by simp [hl])]
  rw [List.take_append_of_le_length (le_of_eq hl.symm),
    List.drop_append_of_le_length (le_of_eq hl.symm),
    List.take_of_length_le (le_of_eq hl), List.drop_eq_nil_of_le (le_of_eq hl),
    List.nil_append, leVal_leBytes, Nat.mod_eq_of_lt h]

theorem readData_of_append (l r : List Nat) :
    readData l.length (l ++ r) = some (l, r) := by
  unfold readData
  rw [if_pos (by simp)]
  rw [List.take_append_of_le_length (le_refl _),
    List.drop_append_of_le_length (le_refl _),
    List.take_of_length_le (le_refl _), List.drop_eq_nil_of_le (le_refl _),
    List.nil_append]

theorem decodeEntries_of_append (body : List PageEntry) (r : List Nat)
    (h : ∀ e ∈ body, wfEntry e) :
    decodeEntries body.length (serBody body ++ r) = some (body, r) := by
  induction body generalizing r with
  | nil => simp [decodeEntries, serBody]
  | cons e rest ih =>
    obtain ⟨h1, h2, h3, h4, h5⟩ := h e (List.mem_cons_self e rest)
    have ihr := fun (r' : List Nat) =>
      ih r' (fun x hx => h x (List.mem_cons_of_mem e hx))
    simp only [List.length_cons, decodeEntries, serBody, List.map_cons,
      List.flatten_cons, serEntry, List.append_assoc]
    rw [readNum_of_append 8 e.pageId _ h1]
    simp only [Option.bind_eq_bind, Option.some_bind]
    rw [readNum_of_append 4 e.offset _ h2]
    simp only [Option.some_bind]
    rw [readNum_of_append 4 e.length _ h3]
    simp only [Option.some_bind]
    rw [← h4, readData_of_append]
    simp only [Option.some_bind]
    rw [h4, ← h5, readData_of_append]
    simp only [Option.some_bind]
    rw [← serBody, ihr r]
    simp only [Option.some_bind, h5]

theorem decodeTransaction_of_append (t : Transaction) (r : List Nat)
    (h : wfTransaction t) :
    decodeTransaction (serTransaction t ++ r) = some (t, r) := by
  obtain ⟨h1, h2, h3, h4, h5, h6⟩ := h
  simp only [decodeTransaction, serTransaction, List.append_assoc]
  rw [readNum_of_append 8 t.transactionId _ h1]
  simp only [Option.bind_eq_bind, Option.some_bind]
  rw [readNum_of_append 4 t.pageCount _ h2]
  simp only [Option.some_bind]
  rw [h3, decodeEntries_of_append t.body _ h6]
  simp only [Option.some_bind]
  rw [readNum_of_append 8 t.endTransactionId _ h4]
  simp only [Option.some_bind]
  rw [readNum_of_append 4 t.endChecksum _ h5]
  simp only [Option.some_bind]
  rw [← h3]

/-- A record is at least 24 bytes (12-byte header, 12-byte footer), so
decoding fails on any shorter stream. -/
theorem decodeTransaction_none_of_short (g : List Nat)
    (h : g.length < 24) : decodeTransaction g = none := by
  simp only [decodeTransaction, readNum, Option.bind_eq_bind]
  by_cases h8 : 8 ≤ g.length
  · rw [if_pos h8]
    simp only [Option.some_bind]
    have hg1 : (g.drop 8).length = g.length - 8 := List.length_drop 8 g
    by_cases h4 : 4 ≤ (g.drop 8).length
    · rw [if_pos h4]
      simp only [Option.some_bind]
      have hg2 : ((g.drop 8).drop 4).length = g.length - 12 := by
        simp [List.length_drop]
      cases hpc : leVal ((g.drop 8).take 4) with
      | zero =>
        simp only [decodeEntries, Option.some_bind]
        by_cases h8b : 8 ≤ ((g.drop 8).drop 4).length
        · rw [if_pos h8b]
          simp only [Option.some_bind]
          rw [if_neg (by simp [List.length_drop]; omega)]
          simp
        · rw [if_neg h8b]
          simp
      | succ n =>
        simp only [decodeEntries, readNum, Option.bind_eq_bind]
        by_cases h8b : 8 ≤ ((g.drop 8).drop 4).length
        · rw [if_pos h8b]
          simp only [Option.some_bind]
          rw [if_neg (by simp [List.length_drop]; omega)]
          simp
        · rw [if_neg h8b]
          simp
    · rw [if_neg h4]
      simp
  · rw [if_neg h8]
    simp

theorem serTransaction_length_ge (t : Transaction) :
    24 ≤ (serTransaction t).length := by
  simp [serTransaction]
  omega

theorem serFile_length_ge (ts : List Transaction) :
    ts.length ≤ (serFile ts).length := by
  induction ts with
  | nil => simp [serFile]
  | cons t rest ih =>
    have := serTransaction_length_ge t
    simp only [serFile, List.map_cons, List.flatten_cons,
      List.length_append, List.length_cons] at *
    omega

/-- Core recovery lemma: starting at the boundary after a prefix pre,
the loop decodes exactly the records of ts, caches those whose checksum
validates, and truncates the file at the end of the decodable region
(the trailing garbage g, on which decoding fails, is cut off). -/
theorem walRecover_spec (ts : List Transaction) :
    ∀ (fuel : Nat) (pre g : List Nat) (st : WalState),
    (∀ t ∈ ts, wfTransaction t) →
    decodeTransaction g = none →
    ts.length + 1 ≤ fuel →
    (walRecover fuel (pre ++ (serFile ts ++ g)) pre.length st).file
        = pre ++ serFile ts ∧
    (walRecover fuel (pre ++ (serFile ts ++ g)) pre.length st).cache
        = (ts.filter (fun t => decide (checkSumOk t))).foldl addCache st.cache ∧
    (walRecover fuel (pre ++ (serFile ts ++ g)) pre.length st).nextTransactionId
        = st.nextTransactionId := by
  induction ts with
  | nil =>
    intro fuel pre g st _ hg hfuel
    match fuel, hfuel with
    | fuel + 1, _ =>
      simp only [serFile, List.map_nil, List.flatten_nil, List.nil_append,
        walRecover, List.drop_append_of_le_length (le_refl _),
        List.drop_eq_nil_of_le (le_refl pre.length), List.nil_append, hg,
        List.take_append_of_le_length (le_refl _),
        List.take_of_length_le (le_refl _), List.append_nil,
        List.filter_nil, List.foldl_nil]
      exact ⟨trivial, trivial, trivial⟩
  | cons t rest ih =>
    intro fuel pre g st hwf hg hfuel
    match fuel, hfuel with
    | fuel + 1, hfuel =>
      have hwt := hwf t (List.mem_cons_self t rest)
      have hdrop : (pre ++ (serFile (t :: rest) ++ g)).drop pre.length
          = serTransaction t ++ (serFile rest ++ g) := by
        rw [List.drop_append_of_le_length (le_refl _),
          List.drop_eq_nil_of_le (le_refl pre.length), List.nil_append]
        simp [serFile, List.append_assoc]
      have hdec := decodeTransaction_of_append t (serFile rest ++ g) hwt
      have hlen : (serTransaction t ++ (serFile rest ++ g)).length
          - (serFile rest ++ g).length = (serTransaction t).length := by
        simp
      have hpos : pre.length + (serTransaction t).length
          = (pre ++ serTransaction t).length := by simp
      have hre : pre ++ (serFile (t :: rest) ++ g)
          = (pre ++ serTransaction t) ++ (serFile rest ++ g) := by
        simp [serFile, List.append_assoc]
      have ihr := ih fuel (pre ++ serTransaction t) g
        (if checkSumOk t then
          { st with cache := addCache st.cache t,
                    fileSize := (pre ++ serTransaction t).length }
         else st)
        (fun x hx => hwf x (List.mem_cons_of_mem t hx))
        hg (by simpa using hfuel)
      simp only [walRecover, hdrop, hdec, hlen, hpos]
      by_cases hck : checkSumOk t
      · rw [if_pos hck] at ihr ⊢
        rw [hre]
        refine ⟨ihr.1.trans ?_, ihr.2.1.trans ?_, ihr.2.2⟩
        · simp [serFile, List.append_assoc]
        · simp [List.filter_cons, hck, List.foldl_cons]
      · rw [if_neg hck] at ihr ⊢
        rw [hre]
        refine ⟨ihr.1.trans ?_, ihr.2.1.trans ?_, ihr.2.2⟩
        · simp [serFile, List.append_assoc]
        · simp [List.filter_cons, hck]

/-! ### Association-list and state-operation lemmas -/

theorem alookup_updNode : ∀ (ns : List (Nat × Node)) (k : Nat)
    (f : Node → Node) (j : Nat),
    alookup (updNode ns k f) j =
      if j = k then (alookup ns k).map f else alookup ns j
  | [], k, f, j => by
    simp [updNode, alookup, ite_self]
  | (a, v) :: tl, k, f, j => by
    by_cases hak : a = k
    · subst hak
      by_cases haj : a = j
      · subst haj
        simp [updNode, alookup]
      · have hja : ¬ (j = a) := fun h => haj h.symm
        simp [updNode, alookup, haj, hja]
    · by_cases haj : a = j
      · subst haj
        have hjk : ¬ (a = k) := hak
        simp [updNode, alookup, hak, hjk]
      · have hja : ¬ (j = a) := fun h => haj h.symm
        simp [updNode, alookup, hak, haj, alookup_updNode tl k f j]

theorem alookup_updNode_data (ns : List (Nat × Node)) (k : Nat)
    (f : Node → Node) (j : Nat) (hf : ∀ nd, (f nd).data = nd.data) :
    (alookup (updNode ns k f) j).map Node.data
      = (alookup ns j).map Node.data := by
  rw [alookup_updNode]
  by_cases h : j = k
  · subst h
    cases alookup ns j <;> simp [hf]
  · rw [if_neg h]

theorem alookup_append (l1 l2 : List (Nat × Node)) (j : Nat) :
    alookup (l1 ++ l2) j =
      match alookup l1 j with
      | some v => some v
      | none => alookup l2 j := by
  induction l1 with
  | nil => simp [alookup]
  | cons hd tl ih =>
    obtain ⟨a, v⟩ := hd
    by_cases h : a = j <;> simp [alookup, h, ih]

theorem alookup_dbInsert_self : ∀ (db : List (Nat × Nat)) (p n : Nat),
    alookup (dbInsert db p n) p = some n
  | [], p, n => by simp [dbInsert, alookup]
  | (a, v) :: tl, p, n => by
    by_cases h : a = p
    · subst h
      simp [dbInsert, alookup]
    · simp [dbInsert, alookup, h, alookup_dbInsert_self tl p n]

theorem alookup_dbInsert_other : ∀ (db : List (Nat × Nat)) (p n j : Nat),
    j ≠ p → alookup (dbInsert db p n) j = alookup db j
  | [], p, n, j, hj => by
    have hpj : ¬ (p = j) := fun h => hj h.symm
    simp [dbInsert, alookup, hpj]
  | (a, v) :: tl, p, n, j, hj => by
    by_cases h : a = p
    · subst h
      have haj : ¬ (a = j) := fun h2 => hj h2.symm
      simp [dbInsert, alookup, haj]
    · simp [dbInsert, alookup, h, alookup_dbInsert_other tl p n j hj]

/-- Specialisations of the previous lemma to the two pointer-only
updates the LRU code performs; stated unconditionally so simp can chain
them through nested updates. -/
theorem alookup_updNode_data_prev (ns : List (Nat × Node)) (k j : Nat)
    (x : Option Nat) :
    (alookup (updNode ns k (fun nd => { nd with prev := x })) j).map Node.data
      = (alookup ns j).map Node.data :=
  alookup_updNode_data ns k _ j (fun nd => rfl)

theorem alookup_updNode_data_next (ns : List (Nat × Node)) (k j : Nat)
    (x : Option Nat) :
    (alookup (updNode ns k (fun nd => { nd with next := x })) j).map Node.data
      = (alookup ns j).map Node.data :=
  alookup_updNode_data ns k _ j (fun nd => rfl)

/-- Fields of the state removeTail never touches, and preservation of
every backing array's bytes (it only rewires prev pointers and deletes a
map binding). -/
theorem removeTail_facts (s : DBState) :
    (removeTail s).disc = s.disc ∧ (removeTail s).wal = s.wal ∧
    (removeTail s).nextNodeId = s.nextNodeId ∧
    (removeTail s).cacheCapacityPages = s.cacheCapacityPages ∧
    (removeTail s).checkpointSizeThreshold = s.checkpointSizeThreshold ∧
    (∀ j, (alookup (removeTail s).nodes j).map Node.data
        = (alookup s.nodes j).map Node.data) := by
  cases htail : s.tail with
  | none =>
    refine ⟨?_, ?_, ?_, ?_, ?_, fun j => ?_⟩ <;>
      simp only [removeTail, htail]
  | some tl =>
    cases hnext : (nodeGet s.nodes tl).next with
    | some nxt =>
      refine ⟨?_, ?_, ?_, ?_, ?_, fun j => ?_⟩ <;>
        simp only [removeTail, htail, hnext, alookup_updNode_data_prev, alookup_updNode_data_next]
    | none =>
      refine ⟨?_, ?_, ?_, ?_, ?_, fun j => ?_⟩ <;>
        simp only [removeTail, htail, hnext]

/-- makeHead touches only pointer fields: the map, every array's bytes
and all non-LRU state are unchanged. -/
theorem makeHead_facts (s : DBState) (p : Nat) :
    (makeHead s p).disc = s.disc ∧ (makeHead s p).wal = s.wal ∧
    (makeHead s p).nextNodeId = s.nextNodeId ∧
    (makeHead s p).cacheCapacityPages = s.cacheCapacityPages ∧
    (makeHead s p).checkpointSizeThreshold = s.checkpointSizeThreshold ∧
    (makeHead s p).db = s.db ∧
    (∀ j, (alookup (makeHead s p).nodes j).map Node.data
        = (alookup s.nodes j).map Node.data) := by
  cases hdb : alookup s.db p with
  | none =>
    refine ⟨?_, ?_, ?_, ?_, ?_, ?_, fun j => ?_⟩ <;>
      simp only [makeHead, hdb]
  | some e =>
    cases hnx : (nodeGet s.nodes e).next with
    | some nx =>
      cases hpv : (nodeGet (updNode s.nodes nx
          (fun nd => { nd with prev := (nodeGet s.nodes e).prev })) e).prev with
      | some pv =>
        refine ⟨?_, ?_, ?_, ?_, ?_, ?_, fun j => ?_⟩ <;>
          simp only [makeHead, hdb, hnx, hpv, alookup_updNode_data_prev, alookup_updNode_data_next]
      | none =>
        refine ⟨?_, ?_, ?_, ?_, ?_, ?_, fun j => ?_⟩ <;>
          simp only [makeHead, hdb, hnx, hpv, alookup_updNode_data_prev, alookup_updNode_data_next]
    | none =>
      cases hpv : (nodeGet s.nodes e).prev with
      | some pv =>
        refine ⟨?_, ?_, ?_, ?_, ?_, ?_, fun j => ?_⟩ <;>
          simp only [makeHead, hdb, hnx, hpv, alookup_updNode_data_prev, alookup_updNode_data_next]
      | none =>
        refine ⟨?_, ?_, ?_, ?_, ?_, ?_, fun j => ?_⟩ <;>
          simp only [makeHead, hdb, hnx, hpv, alookup_updNode_data_prev, alookup_updNode_data_next]

/-- The effect of addCacheData under the allocation-counter invariant
(every live heap key is below nextNodeId; true in every state the code
can construct, since nodes are only ever added with the current counter
value which is then incremented). -/
theorem addCacheData_facts (s : DBState) (data : PageBody) (p : Nat)
    (hfresh : ∀ k, s.nextNodeId ≤ k → alookup s.nodes k = none) :
    (addCacheData s data p).disc = s.disc ∧
    (addCacheData s data p).wal = s.wal ∧
    (addCacheData s data p).cacheCapacityPages = s.cacheCapacityPages ∧
    (addCacheData s data p).checkpointSizeThreshold
      = s.checkpointSizeThreshold ∧
    (addCacheData s data p).nextNodeId = s.nextNodeId + 1 ∧
    alookup (addCacheData s data p).db p = some s.nextNodeId ∧
    (alookup (addCacheData s data p).nodes s.nextNodeId).map Node.data
      = some data ∧
    (∀ j, j ≠ s.nextNodeId →
      (alookup (addCacheData s data p).nodes j).map Node.data
        = (alookup s.nodes j).map Node.data) ∧
    (∀ k, (addCacheData s data p).nextNodeId ≤ k →
      alookup (addCacheData s data p).nodes k = none) := by
  obtain ⟨hd, hw, hn, hc, ht, hdat⟩ := removeTail_facts s
  set s1 := if s.cacheCapacityPages ≤ s.db.length then removeTail s else s
    with hs1
  have hs1disc : s1.disc = s.disc := by
    rw [hs1]; split <;> [exact hd; rfl]
  have hs1wal : s1.wal = s.wal := by
    rw [hs1]; split <;> [exact hw; rfl]
  have hs1next : s1.nextNodeId = s.nextNodeId := by
    rw [hs1]; split <;> [exact hn; rfl]
  have hs1cap : s1.cacheCapacityPages = s.cacheCapacityPages := by
    rw [hs1]; split <;> [exact hc; rfl]
  have hs1th : s1.checkpointSizeThreshold = s.checkpointSizeThreshold := by
    rw [hs1]; split <;> [exact ht; rfl]
  have hs1dat : ∀ j, (alookup s1.nodes j).map Node.data
      = (alookup s.nodes j).map Node.data := by
    rw [hs1]; split <;> [exact hdat; exact fun j => rfl]
  have key : ∀ (ns2 : List (Nat × Node)) (nd : Node), nd.data = data →
      (∀ j, (alookup ns2 j).map Node.data
        = (alookup s1.nodes j).map Node.data) →
      (alookup (ns2 ++ [(s.nextNodeId, nd)]) s.nextNodeId).map Node.data
        = some data ∧
      (∀ j, j ≠ s.nextNodeId →
        (alookup (ns2 ++ [(s.nextNodeId, nd)]) j).map Node.data
          = (alookup s.nodes j).map Node.data) ∧
      (∀ k, s.nextNodeId + 1 ≤ k →
        alookup (ns2 ++ [(s.nextNodeId, nd)]) k = none) := by
    intro ns2 nd hnd hns2
    have hnone : ∀ k, s.nextNodeId ≤ k → alookup ns2 k = none := by
      intro k hk
      have h2 := (hns2 k).trans (hs1dat k)
      rw [hfresh k hk] at h2
      simpa using Option.map_eq_none'.mp h2
    refine ⟨?_, ?_, ?_⟩
    · rw [alookup_append, hnone s.nextNodeId (le_refl _)]
      simp [alookup, hnd]
    · intro j hj
      have h2 := (hns2 j).trans (hs1dat j)
      rw [alookup_append]
      cases hlo : alookup ns2 j with
      | some v =>
        rw [hlo] at h2
        simpa using h2
      | none =>
        rw [hlo] at h2
        have hjne : ¬ (s.nextNodeId = j) := fun hx => hj hx.symm
        simp only [alookup, if_neg hjne]
        simpa using h2
    · intro k hk
      rw [alookup_append, hnone k (by omega)]
      have hkne : ¬ (s.nextNodeId = k) := by omega
      simp [alookup, hkne]
  unfold addCacheData
  rw [← hs1]
  cases hh : s1.head with
  | some h =>
    simp only [hh, hs1next]
    have hk := key
      (updNode s1.nodes h (fun nd => { nd with next := some s.nextNodeId }))
      ⟨data, none, some h⟩ rfl
      (fun j => alookup_updNode_data_next _ _ _ _)
    exact ⟨hs1disc, hs1wal, hs1cap, hs1th, trivial,
      alookup_dbInsert_self _ _ _, hk.1, hk.2.1, hk.2.2⟩
  | none =>
    simp only [hh, hs1next]
    have hk := key s1.nodes ⟨data, none, none⟩ rfl (fun j => rfl)
    exact ⟨hs1disc, hs1wal, hs1cap, hs1th, trivial,
      alookup_dbInsert_self _ _ _, hk.1, hk.2.1, hk.2.2⟩

/-- loadPageFromDisc forwards a failed read unchanged (no overlay). -/
theorem loadPageFromDisc_err (s : DBState) (p : Nat) (err : DBErr)
    (h : (readPageData s.disc p).2 = some err) :
    loadPageFromDisc s p = ((s.disc p).body, some err) := by
  have hfst : (readPageData s.disc p).1 = (s.disc p).body := by
    simp only [readPageData]
    split <;> rfl
  have hpair : readPageData s.disc p = ((s.disc p).body, some err) := by
    rw [← hfst, ← h]
  unfold loadPageFromDisc
  rw [hpair]

theorem getPage_miss (s : DBState) (p : Nat)
    (h : alookup s.db p = none) :
    getPage s p = (addCacheData s (loadPageFromDisc s p).1 p,
      (loadPageFromDisc s p).1, (loadPageFromDisc s p).2) := by
  simp only [getPage, h]

theorem getPage_hit (s : DBState) (p e : Nat)
    (h : alookup s.db p = some e) :
    getPage s p = (makeHead s p, (nodeGet s.nodes e).data, none) := by
  simp only [getPage, h]

theorem map_data_transfer (ns1 ns0 : List (Nat × Node)) (j : Nat)
    (h : (alookup ns1 j).map Node.data = (alookup ns0 j).map Node.data)
    (nd' : Node) (h1 : alookup ns1 j = some nd') :
    ∃ nd0, alookup ns0 j = some nd0 ∧ nd'.data = nd0.data := by
  rw [h1] at h
  cases h0 : alookup ns0 j with
  | none => rw [h0] at h; simp at h
  | some nd0 =>
    rw [h0] at h
    exact ⟨nd0, rfl, Option.some.inj h⟩

theorem fresh_transfer (ns1 ns0 : List (Nat × Node))
    (h : ∀ j, (alookup ns1 j).map Node.data
      = (alookup ns0 j).map Node.data) :
    ∀ k, alookup ns0 k = none → alookup ns1 k = none := by
  intro k hk
  have h2 := h k
  rw [hk] at h2
  simpa using Option.map_eq_none'.mp h2

/-- loadPageFromDisc reads only the disc and the WAL cache. -/
theorem loadPageFromDisc_congr (s0 s : DBState) (q : Nat)
    (hd : s0.disc = s.disc) (hw : s0.wal = s.wal) :
    loadPageFromDisc s0 q = loadPageFromDisc s q := by
  unfold loadPageFromDisc
  rw [hd, hw]

/-- A clean read yields a clean load. -/
theorem loadPageFromDisc_ok (s : DBState) (q : Nat)
    (h : (readPageData s.disc q).2 = none) :
    loadPageFromDisc s q = ((loadPageFromDisc s q).1, none) := by
  have hpair : readPageData s.disc q = ((readPageData s.disc q).1, none) := by
    exact Prod.ext rfl h
  unfold loadPageFromDisc
  rw [hpair]
  cases alookup s.wal.cache q <;> rfl

/-- The invariant threaded through WritePages' first loop on the
error-free prefix: the disc and WAL are untouched, heap freshness is
kept, and every live array either is an original array with unchanged
bytes or holds a plain disc-plus-overlay load. -/
def BuildInv (s s0 : DBState) : Prop :=
  s0.disc = s.disc ∧ s0.wal = s.wal ∧
  (∀ k, s0.nextNodeId ≤ k → alookup s0.nodes k = none) ∧
  (∀ nid nd', alookup s0.nodes nid = some nd' →
    (∃ nd, alookup s.nodes nid = some nd ∧ nd'.data = nd.data) ∨
    (∃ q, nd'.data = (loadPageFromDisc s q).1))

theorem buildInv_makeHead (s s0 : DBState) (p : Nat)
    (h : BuildInv s s0) : BuildInv s (makeHead s0 p) := by
  obtain ⟨hd, hw, hf, hn⟩ := h
  obtain ⟨md, mw, mn, _, _, _, mdat⟩ := makeHead_facts s0 p
  refine ⟨md.trans hd, mw.trans hw, ?_, ?_⟩
  · intro k hk
    rw [mn] at hk
    exact fresh_transfer _ _ mdat k (hf k hk)
  · intro nid nd' h1
    obtain ⟨nd0, h0, hdata⟩ := map_data_transfer _ _ nid (mdat nid) nd' h1
    rcases hn nid nd0 h0 with ⟨nd2, h2, h3⟩ | ⟨q, h3⟩
    · exact Or.inl ⟨nd2, h2, hdata.trans h3⟩
    · exact Or.inr ⟨q, hdata.trans h3⟩

theorem buildInv_addCacheData (s s0 : DBState) (p q0 : Nat)
    (h : BuildInv s s0) :
    BuildInv s (addCacheData s0 (loadPageFromDisc s q0).1 p) := by
  obtain ⟨hd, hw, hf, hn⟩ := h
  obtain ⟨ad, aw, _, _, an, _, anew, aold, afresh⟩ :=
    addCacheData_facts s0 (loadPageFromDisc s q0).1 p hf
  refine ⟨ad.trans hd, aw.trans hw, afresh, ?_⟩
  intro nid nd' h1
  by_cases hnid : nid = s0.nextNodeId
  · subst hnid
    rw [h1] at anew
    exact Or.inr ⟨q0, Option.some.inj anew⟩
  · obtain ⟨nd0, h0, hdata⟩ := map_data_transfer _ _ nid (aold nid hnid) nd' h1
    rcases hn nid nd0 h0 with ⟨nd2, h2, h3⟩ | ⟨q, h3⟩
    · exact Or.inl ⟨nd2, h2, hdata.trans h3⟩
    · exact Or.inr ⟨q, hdata.trans h3⟩

/-- The first WritePages loop, run on in-bounds deltas followed by an
out-of-bounds one, stops at the out-of-bounds delta with its page id in
the error, having only faulted pages in (never mutating any array or
the WAL). -/
theorem buildLoop_oob (s : DBState)
    (hgood : ∀ q, (readPageData s.disc q).2 = none)
    (d : PageDelta) (hd : pageBodySize < d.offset + d.newData.length) :
    ∀ (pre : List PageDelta) (post : List PageDelta) (s0 : DBState)
      (acc : List PendingEntry),
    BuildInv s s0 →
    (∀ x ∈ pre, x.offset + x.newData.length ≤ pageBodySize) →
    ∃ s1 acc1,
      buildLoop s0 acc (pre ++ d :: post)
        = (s1, acc1, some (DBErr.outOfBounds d.pageId)) ∧
      BuildInv s s1 := by
  intro pre
  induction pre with
  | nil =>
    intro post s0 acc hinv _
    have hld : loadPageFromDisc s0 d.pageId
        = ((loadPageFromDisc s d.pageId).1, none) := by
      rw [loadPageFromDisc_congr s0 s d.pageId hinv.1 hinv.2.1]
      exact loadPageFromDisc_ok s d.pageId (hgood d.pageId)
    cases hdb : alookup s0.db d.pageId with
    | none =>
      refine ⟨addCacheData s0 (loadPageFromDisc s d.pageId).1 d.pageId, acc,
        ?_, buildInv_addCacheData s s0 d.pageId d.pageId hinv⟩
      simp only [List.nil_append, buildLoop, hdb, hld, if_pos hd]
    | some e =>
      refine ⟨makeHead s0 d.pageId, acc, ?_,
        buildInv_makeHead s s0 d.pageId hinv⟩
      simp only [List.nil_append, buildLoop, hdb, if_pos hd]
  | cons x pre ih =>
    intro post s0 acc hinv hpre
    have hx := hpre x (List.mem_cons_self x pre)
    have hxn : ¬ (pageBodySize < x.offset + x.newData.length) :=
      not_lt.mpr hx
    have hpre2 : ∀ y ∈ pre, y.offset + y.newData.length ≤ pageBodySize :=
      fun y hy => hpre y (List.mem_cons_of_mem x hy)
    have hld : loadPageFromDisc s0 x.pageId
        = ((loadPageFromDisc s x.pageId).1, none) := by
      rw [loadPageFromDisc_congr s0 s x.pageId hinv.1 hinv.2.1]
      exact loadPageFromDisc_ok s x.pageId (hgood x.pageId)
    cases hdb : alookup s0.db x.pageId with
    | none =>
      obtain ⟨s1, acc1, heq, hinv1⟩ :=
        ih post (addCacheData s0 (loadPageFromDisc s x.pageId).1 x.pageId)
          (acc ++ [⟨x.pageId, x.offset, x.newData.length % 2 ^ 32,
            (if s0.cacheCapacityPages ≤ s0.db.length then removeTail s0
             else s0).nextNodeId, x.newData⟩])
          (buildInv_addCacheData s s0 x.pageId x.pageId hinv) hpre2
      refine ⟨s1, acc1, ?_, hinv1⟩
      simp only [List.cons_append, buildLoop, hdb, hld, if_neg hxn]
      exact heq
    | some e =>
      obtain ⟨s1, acc1, heq, hinv1⟩ :=
        ih post (makeHead s0 x.pageId)
          (acc ++ [⟨x.pageId, x.offset, x.newData.length % 2 ^ 32, e,
            x.newData⟩])
          (buildInv_makeHead s s0 x.pageId hinv) hpre2
      refine ⟨s1, acc1, ?_, hinv1⟩
      simp only [List.cons_append, buildLoop, hdb, if_neg hxn]
      exact heq

/-- A page whose stored checksum matches reads back cleanly. -/
theorem readPageData_valid (d : Disc) (q : Nat)
    (h : (d q).header.checksum = getChecksum ((d q).body)) :
    readPageData d q = ((d q).body, none) := by
  simp only [readPageData, readPageHeader]
  rw [if_pos h]

/-- On a state whose data file is goodDisc and whose WAL cache has no
entry for q, a load returns the zero body with no error. -/
theorem loadPageFromDisc_goodZero (s : DBState) (q : Nat)
    (hd : s.disc = goodDisc) (hw : alookup s.wal.cache q = none) :
    loadPageFromDisc s q = (zeroBody, none) := by
  unfold loadPageFromDisc
  rw [hd, readPageData_valid goodDisc q rfl]
  simp only [hw]
  rfl

/-- A miss on a good zero disc with an empty WAL entry for the page:
GetPage caches the zero body. -/
theorem touch_miss (s : DBState) (p : Nat)
    (h : alookup s.db p = none) (hd : s.disc = goodDisc)
    (hw : alookup s.wal.cache p = none) :
    touch s p = addCacheData s zeroBody p := by
  show (getPage s p).1 = _
  rw [getPage_miss s p h, loadPageFromDisc_goodZero s p hd hw]

/-- A hit: GetPage only promotes. -/
theorem touch_hit (s : DBState) (p e : Nat)
    (h : alookup s.db p = some e) :
    touch s p = makeHead s p := by
  show (getPage s p).1 = _
  rw [getPage_hit s p e h]

/-- One reflected CRC32 bit-step stays below 2^32. -/
theorem crcRound_lt (c : Nat) (h : c < 2 ^ 32) : crcRound c < 2 ^ 32 := by
  unfold crcRound
  have hdiv : c / 2 < 2 ^ 32 := Nat.lt_of_le_of_lt (Nat.div_le_self c 2) h
  split
  · exact Nat.xor_lt_two_pow hdiv (by decide)
  · exact hdiv

theorem crcRounds_lt (k : Nat) : ∀ c, c < 2 ^ 32 → crcRounds k c < 2 ^ 32 := by
  induction k with
  | zero => exact fun c h => h
  | succ m ih => exact fun c h => ih (crcRound c) (crcRound_lt c h)

theorem crc32Aux_lt (bs : List Nat) : ∀ c, c < 2 ^ 32 →
    crc32Aux c bs < 2 ^ 32 := by
  induction bs with
  | nil => exact fun c h => h
  | cons b rest ih =>
    exact fun c h => ih _ (crcRounds_lt 8 _ (Nat.xor_lt_two_pow h
      (Nat.lt_of_lt_of_le (Nat.mod_lt b (by decide)) (by decide))))

/-- A CRC32 value always fits a uint32. -/
theorem crc32_lt (bs : List Nat) : crc32 bs < 2 ^ 32 := by
  unfold crc32
  exact Nat.xor_lt_two_pow (crc32Aux_lt bs 0xFFFFFFFF (by decide)) (by decide)

/-- A page whose stored checksum matches its body loads with no error
and no overlay when the WAL cache holds nothing for it. -/
theorem loadPageFromDisc_valid (s : DBState) (q : Nat)
    (hd : (s.disc q).header.checksum = getChecksum ((s.disc q).body))
    (hw : alookup s.wal.cache q = none) :
    loadPageFromDisc s q = ((s.disc q).body, none) := by
  unfold loadPageFromDisc
  rw [readPageData_valid s.disc q hd]
  simp only [hw]

/-- One miss iteration of WritePages' build loop when the load succeeds
and the delta is in bounds. -/
theorem buildLoop_miss_ok (s : DBState) (acc : List PendingEntry)
    (d : PageDelta) (rest : List PageDelta) (data : PageBody)
    (h : alookup s.db d.pageId = none)
    (hl : loadPageFromDisc s d.pageId = (data, none))
    (hb : ¬ pageBodySize < d.offset + d.newData.length) :
    buildLoop s acc (d :: rest)
      = buildLoop (addCacheData s data d.pageId)
          (acc ++ [⟨d.pageId, d.offset, d.newData.length % 2 ^ 32,
            (if s.cacheCapacityPages ≤ s.db.length then removeTail s
             else s).nextNodeId, d.newData⟩]) rest := by
  simp only [buildLoop, h, hl]
  rw [if_neg hb]

theorem buildLoop_nil (s : DBState) (acc : List PendingEntry) :
    buildLoop s acc [] = (s, acc, none) := rfl

theorem applyLoop_cons (s : DBState) (d : PageDelta)
    (rest : List PageDelta) :
    applyLoop s (d :: rest) = applyLoop (applyDelta s d).1 rest := rfl

/-- WritePages on the happy path, assembled from the phases. -/
theorem writePages_ok (s s0 s1 s2 : DBState) (changes : List PageDelta)
    (entries : List PendingEntry) (w : WalState) (tid : Nat)
    (h0 : checkpointTrigger s = (s0, none))
    (h1 : buildLoop s0 [] changes = (s1, entries, none))
    (h2 : applyLoop s1 changes = s2)
    (h3 : appendTransaction s2.wal s2.nodes
        ⟨0, changes.length % 2 ^ 32, entries, 0, 0⟩ = (w, tid)) :
    writePages s changes = ({ s2 with wal := w }, tid, none) := by
  simp only [writePages, h0, h1, h2, h3]

theorem dbInsert_length : ∀ (db : List (Nat × Nat)) (p n : Nat),
    (dbInsert db p n).length ≤ db.length + 1
  | [], p, n => by simp [dbInsert]
  | (k, v) :: rest, p, n => by
    by_cases h : k = p
    · simp [dbInsert, h]
    · simp only [dbInsert, if_neg h, List.length_cons]
      exact Nat.succ_le_succ (dbInsert_length rest p n)

/-- Keys of the cache after an upsert: the inserted key or a key it
already had. -/
theorem mem_upsertAppend_fst {α : Type} :
    ∀ (c : List (Nat × List α)) (p : Nat) (v : α) (pc : Nat × List α),
      pc ∈ upsertAppend c p v → pc.1 = p ∨ ∃ vs, (pc.1, vs) ∈ c
  | [], p, v, pc, hm => by
    left
    simp only [upsertAppend, List.mem_singleton] at hm
    rw [hm]
  | (k, vs) :: rest, p, v, pc, hm => by
    by_cases hk : k = p
    · rw [upsertAppend, if_pos hk] at hm
      rcases List.mem_cons.mp hm with h1 | h1
      · left; rw [h1, hk]
      · right
        exact ⟨pc.2, List.mem_cons_of_mem _ (by rw [Prod.mk.eta]; exact h1)⟩
    · rw [upsertAppend, if_neg hk] at hm
      rcases List.mem_cons.mp hm with h1 | h1
      · right; exact ⟨vs, by rw [h1]; exact List.mem_cons_self _ _⟩
      · rcases mem_upsertAppend_fst rest p v pc h1 with h2 | ⟨vs2, h2⟩
        · left; exact h2
        · right; exact ⟨vs2, List.mem_cons_of_mem _ h2⟩

theorem alookup_upsertAppend_other {α : Type} :
    ∀ (c : List (Nat × List α)) (p j : Nat) (v : α), j ≠ p →
      alookup (upsertAppend c p v) j = alookup c j
  | [], p, j, v, hj => by
    have hpj : ¬ (p = j) := fun h => hj h.symm
    simp [upsertAppend, alookup, hpj]
  | (k, vs) :: rest, p, j, v, hj => by
    by_cases hk : k = p
    · subst hk
      have hkj : ¬ (k = j) := fun h => hj h.symm
      simp [upsertAppend, alookup, hkj]
    · by_cases hkj : k = j
      · simp [upsertAppend, alookup, hk, hkj, hj]
      · simp [upsertAppend, alookup, hk, hkj,
          alookup_upsertAppend_other rest p j v hj]

/-- WritePageData leaves every page of a checksum-valid file
checksum-valid (it recomputes the header checksum it stores). -/
theorem writePageData_keeps_valid (d : Disc) (p : Nat) (data : PageBody)
    (hd : ∀ q, (d q).header.checksum = getChecksum ((d q).body)) :
    ∀ q, ((writePageData d p data) q).header.checksum
      = getChecksum (((writePageData d p data) q).body) := by
  intro q
  by_cases hq : q = p
  · simp [writePageData, hq]
  · simp [writePageData, hq, hd q]

/-- clearFromDisc empties the cache and the file but keeps the
transaction counter and the recorded file size. -/
theorem clearFromDisc_eq (w : WalState) :
    clearFromDisc w = ⟨[], w.nextTransactionId, w.fileSize, []⟩ := rfl

/-- flushCheckpoint's loop completes without the nil dereference when
every WAL-cached page id is LRU-resident; it only rewrites disc pages
(keeping them checksum-valid) and rotates the log. -/
theorem flushLoop_ok :
    ∀ (c : List (Nat × List Transaction)) (s : DBState),
      (∀ pc ∈ c, (alookup s.db pc.1).isSome = true) →
      (∀ q, (s.disc q).header.checksum = getChecksum ((s.disc q).body)) →
      ∃ d : Disc, flushLoop s c
          = ({ s with disc := d, wal := clearFromDisc s.wal }, none)
        ∧ ∀ q, (d q).header.checksum = getChecksum ((d q).body)
  | [], s, h, hd => ⟨s.disc, rfl, hd⟩
  | (pid, txs) :: rest, s, h, hd => by
    have hpc := h (pid, txs) (List.mem_cons_self _ _)
    cases he : alookup s.db pid with
    | none => rw [he] at hpc; simp at hpc
    | some e =>
      obtain ⟨d, hres, hdv⟩ := flushLoop_ok rest
        { s with disc := writePageData s.disc pid (nodeGet s.nodes e).data }
        (fun pc2 h2 => h pc2 (List.mem_cons_of_mem _ h2))
        (writePageData_keeps_valid s.disc pid _ hd)
      refine ⟨d, ?_, hdv⟩
      simp only [flushLoop, he]
      exact hres

/-- addCacheData below capacity: the page maps to the fresh node id and
nothing else of the manager outside the LRU structures moves. -/
theorem addCacheData_nf (s : DBState) (data : PageBody) (p : Nat)
    (h : ¬ s.cacheCapacityPages ≤ s.db.length) :
    ∃ ns hd tl, addCacheData s data p
      = { s with nodes := ns,
                 db := dbInsert s.db p s.nextNodeId,
                 head := hd,
                 nextNodeId := s.nextNodeId + 1,
                 tail := tl } := by
  cases hh : s.head with
  | none =>
    refine ⟨s.nodes ++ [(s.nextNodeId, ⟨data, none, none⟩)],
      some s.nextNodeId, some s.nextNodeId, ?_⟩
    simp only [addCacheData, if_neg h, hh]
  | some x =>
    refine ⟨updNode s.nodes x
        (fun nd => { nd with next := some s.nextNodeId })
        ++ [(s.nextNodeId, ⟨data, none, some x⟩)],
      some s.nextNodeId, s.tail, ?_⟩
    simp only [addCacheData, if_neg h, hh]

theorem applyDelta_hit (s : DBState) (d : PageDelta) (e : Nat)
    (h : alookup s.db d.pageId = some e)
    (hb : ¬ pageBodySize < d.offset + d.newData.length) :
    ∃ ns, (applyDelta s d).1 = { s with nodes := ns } := by
  simp only [applyDelta, h]
  rw [if_neg hb]
  exact ⟨_, rfl⟩

/-- appendTransaction, spelled out. -/
theorem appendTransaction_eq (w : WalState) (nodes : List (Nat × Node))
    (t : PendingTxn) :
    appendTransaction w nodes t
      = (⟨t.body.foldl
            (fun acc _ => addCache acc (materializeTxn nodes t)) w.cache,
          w.nextTransactionId + 1,
          w.fileSize +
            ((leBytes 8 w.nextTransactionId ++ leBytes 4 t.pageCount ++
              serBody (materializeTxn nodes t).body ++
              leBytes 8 w.nextTransactionId) ++
             leBytes 4 (crc32 (leBytes 8 w.nextTransactionId ++
               leBytes 4 t.pageCount ++
               serBody (materializeTxn nodes t).body ++
               leBytes 8 w.nextTransactionId))).length,
          w.file ++
            ((leBytes 8 w.nextTransactionId ++ leBytes 4 t.pageCount ++
              serBody (materializeTxn nodes t).body ++
              leBytes 8 w.nextTransactionId) ++
             leBytes 4 (crc32 (leBytes 8 w.nextTransactionId ++
               leBytes 4 t.pageCount ++
               serBody (materializeTxn nodes t).body ++
               leBytes 8 w.nextTransactionId)))⟩,
         w.nextTransactionId) := rfl

theorem payload_record_length (a pc : Nat) (body : List PageEntry)
    (crc : Nat) :
    ((leBytes 8 a ++ leBytes 4 pc ++ serBody body ++ leBytes 8 a) ++
      leBytes 4 crc).length = 24 + (serBody body).length := by
  simp [List.length_append, leBytes_length]
  omega

theorem serBody_single_mat_length (nodes : List (Nat × Node))
    (e : PendingEntry) :
    (serBody [materializeEntry nodes e]).length
      = 16 + e.length + e.newData.length := by
  simp [serBody, serEntry, materializeEntry, List.length_append,
    leBytes_length, regionRead_length]
  omega

/-- The happy-path WritePages, component-wise. -/
theorem writePages_wal_eq (s s0 s1 s2 : DBState)
    (changes : List PageDelta) (entries : List PendingEntry)
    (h0 : checkpointTrigger s = (s0, none))
    (h1 : buildLoop s0 [] changes = (s1, entries, none))
    (h2 : applyLoop s1 changes = s2) :
    (writePages s changes).1.wal
      = (appendTransaction s2.wal s2.nodes
          ⟨0, changes.length % 2 ^ 32, entries, 0, 0⟩).1 ∧
    (writePages s changes).1.db = s2.db ∧
    (writePages s changes).1.disc = s2.disc ∧
    (writePages s changes).1.nodes = s2.nodes ∧
    (writePages s changes).1.cacheCapacityPages = s2.cacheCapacityPages ∧
    (writePages s changes).1.checkpointSizeThreshold
      = s2.checkpointSizeThreshold := by
  simp only [writePages, h0, h1, h2]
  exact ⟨trivial, trivial, trivial, trivial, trivial, trivial⟩

/-- appendTransaction of a one-entry transaction: the cache gains that
entry's page key and both size counters advance by the record length. -/
theorem appendTransaction_wal_facts (w : WalState)
    (nodes : List (Nat × Node)) (t : PendingTxn) (e : PendingEntry)
    (hb : t.body = [e]) :
    (∃ v, (appendTransaction w nodes t).1.cache
        = upsertAppend w.cache e.pageId v) ∧
    (appendTransaction w nodes t).1.fileSize
        = w.fileSize + (24 + (16 + e.length + e.newData.length)) ∧
    (appendTransaction w nodes t).1.file.length
        = w.file.length + (24 + (16 + e.length + e.newData.length)) := by
  have hmb : (materializeTxn nodes t).body = [materializeEntry nodes e] := by
    simp only [materializeTxn, hb, List.map_cons, List.map_nil]
  refine ⟨⟨materializeTxn nodes t, ?_⟩, ?_, ?_⟩
  · rw [appendTransaction_eq]
    show t.body.foldl (fun acc _ => addCache acc (materializeTxn nodes t))
        w.cache
      = upsertAppend w.cache e.pageId (materializeTxn nodes t)
    rw [hb]
    simp only [List.foldl_cons, List.foldl_nil]
    show (materializeTxn nodes t).body.foldl
        (fun acc e2 => upsertAppend acc e2.pageId (materializeTxn nodes t))
        w.cache = _
    rw [hmb]
    simp only [List.foldl_cons, List.foldl_nil]
    rfl
  · rw [appendTransaction_eq]
    simp only [payload_record_length, hmb, serBody_single_mat_length]
  · rw [appendTransaction_eq]
    simp only [List.length_append, leBytes_length, hmb,
      serBody_single_mat_length]
    omega

/-- One burst write: the WAL's recorded file size grows by exactly one
8220-byte record and is never reset, whatever the checkpoint did; the
log file itself grows by the record; the LRU and WAL-cache key bounds
advance from n to n+1. -/
theorem burst_write_inv (n : Nat) (s s0 : DBState)
    (h0 : checkpointTrigger s = (s0, none))
    (hv : ∀ q, (s0.disc q).header.checksum = getChecksum ((s0.disc q).body))
    (hc : ∀ pc ∈ s0.wal.cache, (alookup s0.db pc.1).isSome = true)
    (hdbk : ∀ k, n < k → alookup s0.db k = none)
    (hwk : ∀ k, n < k → alookup s0.wal.cache k = none)
    (hlen : s0.db.length ≤ n)
    (hcap32 : s0.cacheCapacityPages = 32000)
    (hthr : s0.checkpointSizeThreshold = 10000)
    (hcapn : n + 1 < 32000)
    (hfs0 : s0.wal.fileSize = 8220 * n)
    (hflen : s0.wal.file.length + 8220
      = (if n + 1 ≤ 2 then 8220 * (n + 1) else 8220)) :
    BInv (n + 1) (burstStep s (n + 1)) := by
  have hmiss : alookup s0.db (n + 1) = none := hdbk _ (Nat.lt_succ_self n)
  have hwmiss : alookup s0.wal.cache (n + 1) = none :=
    hwk _ (Nat.lt_succ_self n)
  have hload : loadPageFromDisc s0 (n + 1)
      = ((s0.disc (n + 1)).body, none) :=
    loadPageFromDisc_valid s0 (n + 1) (hv (n + 1)) hwmiss
  have hnotfull : ¬ s0.cacheCapacityPages ≤ s0.db.length := by
    rw [hcap32]; omega
  have hbound : ¬ pageBodySize <
      (deltaFull (n + 1)).offset + (deltaFull (n + 1)).newData.length := by
    show ¬ pageBodySize < 0 + (List.replicate 4090 7).length
    rw [List.length_replicate]
    decide
  have h1 : buildLoop s0 [] [deltaFull (n + 1)]
      = (addCacheData s0 ((s0.disc (n + 1)).body) (n + 1),
         [⟨(deltaFull (n + 1)).pageId, (deltaFull (n + 1)).offset,
           (deltaFull (n + 1)).newData.length % 2 ^ 32,
           (if s0.cacheCapacityPages ≤ s0.db.length then removeTail s0
            else s0).nextNodeId,
           (deltaFull (n + 1)).newData⟩], none) := by
    rw [buildLoop_miss_ok s0 [] (deltaFull (n + 1)) []
        ((s0.disc (n + 1)).body) hmiss hload hbound,
      List.nil_append, buildLoop_nil]
    rfl
  obtain ⟨ns, hd0, tl0, hacd⟩ :=
    addCacheData_nf s0 ((s0.disc (n + 1)).body) (n + 1) hnotfull
  have hdbS1 : alookup (addCacheData s0 ((s0.disc (n + 1)).body)
      (n + 1)).db (deltaFull (n + 1)).pageId = some s0.nextNodeId := by
    rw [hacd]
    show alookup (dbInsert s0.db (n + 1) s0.nextNodeId) (n + 1)
      = some s0.nextNodeId
    exact alookup_dbInsert_self _ _ _
  obtain ⟨ns2, happd⟩ := applyDelta_hit
    (addCacheData s0 ((s0.disc (n + 1)).body) (n + 1))
    (deltaFull (n + 1)) s0.nextNodeId hdbS1 hbound
  have h2 : applyLoop (addCacheData s0 ((s0.disc (n + 1)).body) (n + 1))
      [deltaFull (n + 1)]
      = { addCacheData s0 ((s0.disc (n + 1)).body) (n + 1) with
          nodes := ns2 } := by
    rw [applyLoop_cons, happd]
    rfl
  obtain ⟨hWwal, hWdb, hWdisc, hWnodes, hWcap, hWthr⟩ :=
    writePages_wal_eq s s0 _ _ [deltaFull (n + 1)] _ h0 h1 h2
  obtain ⟨⟨v, hvc⟩, hWfs, hWfl⟩ :=
    appendTransaction_wal_facts
      ({ addCacheData s0 ((s0.disc (n + 1)).body) (n + 1) with
          nodes := ns2 }).wal
      ({ addCacheData s0 ((s0.disc (n + 1)).body) (n + 1) with
          nodes := ns2 }).nodes
      ⟨0, [deltaFull (n + 1)].length % 2 ^ 32,
        [⟨(deltaFull (n + 1)).pageId, (deltaFull (n + 1)).offset,
          (deltaFull (n + 1)).newData.length % 2 ^ 32,
          (if s0.cacheCapacityPages ≤ s0.db.length then removeTail s0
           else s0).nextNodeId, (deltaFull (n + 1)).newData⟩], 0, 0⟩
      ⟨n + 1, 0, (deltaFull (n + 1)).newData.length % 2 ^ 32,
        (if s0.cacheCapacityPages ≤ s0.db.length then removeTail s0
         else s0).nextNodeId, List.replicate 4090 7⟩
      rfl
  have hFdisc : (burstStep s (n + 1)).disc = s0.disc := by
    show ((writePages s [deltaFull (n + 1)]).1).disc = s0.disc
    rw [hWdisc, hacd]
  have hFdb : (burstStep s (n + 1)).db
      = dbInsert s0.db (n + 1) s0.nextNodeId := by
    show ((writePages s [deltaFull (n + 1)]).1).db = _
    rw [hWdb, hacd]
  have hFcap : (burstStep s (n + 1)).cacheCapacityPages = 32000 := by
    show ((writePages s [deltaFull (n + 1)]).1).cacheCapacityPages = _
    rw [hWcap, hacd]
    exact hcap32
  have hFthr : (burstStep s (n + 1)).checkpointSizeThreshold = 10000 := by
    show ((writePages s [deltaFull (n + 1)]).1).checkpointSizeThreshold = _
    rw [hWthr, hacd]
    exact hthr
  have hwc : (burstStep s (n + 1)).wal.cache
      = upsertAppend s0.wal.cache (n + 1) v := by
    show ((writePages s [deltaFull (n + 1)]).1).wal.cache = _
    rw [hWwal, hvc, hacd]
  have hm4090 : (4090 : Nat) % 2 ^ 32 = 4090 :=
    Nat.mod_eq_of_lt (by norm_num)
  have hWsize : (burstStep s (n + 1)).wal.fileSize
      = s0.wal.fileSize + 8220 := by
    show ((writePages s [deltaFull (n + 1)]).1).wal.fileSize = _
    rw [hWwal, hWfs, hacd]
    simp only [deltaFull, List.length_replicate, hm4090]
  have hWfile : (burstStep s (n + 1)).wal.file.length
      = s0.wal.file.length + 8220 := by
    show ((writePages s [deltaFull (n + 1)]).1).wal.file.length = _
    rw [hWwal, hWfl, hacd]
    simp only [deltaFull, List.length_replicate, hm4090]
  refine ⟨?_, ?_, ?_, ?_, ?_, ?_, hFcap, hFthr, ?_⟩
  · intro q
    rw [hFdisc]
    exact hv q
  · intro pc hpc
    rw [hwc] at hpc
    rw [hFdb]
    rcases mem_upsertAppend_fst _ _ _ _ hpc with h1m | ⟨vs, h2m⟩
    · rw [h1m, alookup_dbInsert_self]
      rfl
    · by_cases hpe : pc.1 = n + 1
      · rw [hpe, alookup_dbInsert_self]
        rfl
      · rw [alookup_dbInsert_other _ _ _ _ hpe]
        exact hc (pc.1, vs) h2m
  · intro k hk
    rw [hFdb, alookup_dbInsert_other _ _ _ _ (by omega)]
    exact hdbk k (by omega)
  · intro k hk
    rw [hwc, alookup_upsertAppend_other _ _ _ _ (by omega)]
    exact hwk k (by omega)
  · rw [hWsize, hfs0]
    ring
  · rw [hFdb]
    exact le_trans (dbInsert_length _ _ _) (Nat.succ_le_succ hlen)
  · rw [hWfile]
    exact hflen

/-- One burst step preserves the burst invariant, through the
checkpoint decision. -/
theorem burstStep_inv (n : Nat) (s : DBState) (hcapn : n + 1 < 32000)
    (h : BInv n s) : BInv (n + 1) (burstStep s (n + 1)) := by
  obtain ⟨hv, hc, hdbk, hwk, hfs, hlen, hcap32, hthr, hfile⟩ := h
  by_cases htrig : (10000 : Nat) ≤ 8220 * n
  · obtain ⟨d, hfl, hdv⟩ := flushLoop_ok s.wal.cache s hc hv
    have hcond : s.checkpointSizeThreshold ≤ s.wal.fileSize := by
      rw [hthr, hfs]
      exact htrig
    have h0 : checkpointTrigger s
        = ({ s with disc := d, wal := clearFromDisc s.wal }, none) := by
      unfold checkpointTrigger
      rw [if_pos hcond]
      exact hfl
    refine burst_write_inv n s _ h0 (fun q => hdv q) ?_ hdbk ?_ hlen
      hcap32 hthr hcapn hfs ?_
    · intro pc hpc
      have hpc2 : pc ∈ ([] : List (Nat × List Transaction)) := hpc
      cases hpc2
    · intro k _
      rfl
    · have hn3 : ¬ (n + 1 ≤ 2) := by omega
      rw [if_neg hn3]
      show ([] : List Nat).length + 8220 = 8220
      rfl
  · have hcond : ¬ s.checkpointSizeThreshold ≤ s.wal.fileSize := by
      rw [hthr, hfs]
      exact htrig
    have h0 : checkpointTrigger s = (s, none) := by
      unfold checkpointTrigger
      rw [if_neg hcond]
    refine burst_write_inv n s s h0 hv hc hdbk hwk hlen
      hcap32 hthr hcapn hfs ?_
    have hn2 : n ≤ 2 := by omega
    have hn2' : n + 1 ≤ 2 := by omega
    rw [hfile, if_pos hn2, if_pos hn2']
    ring

/-- The burst invariant holds at every step of the ten-write burst. -/
theorem burst_inv : ∀ n, n ≤ 10 → BInv n (burst n)
  | 0, _ => by
    refine ⟨?_, ?_, ?_, ?_, ?_, ?_, ?_, ?_, ?_⟩
    · intro q
      have hg : (burst 0).disc q
          = (⟨⟨0, 1, getChecksum zeroBody⟩, zeroBody⟩ : DiscPage) := rfl
      rw [hg]
    · intro pc hpc
      cases hpc
    · intro k _
      rfl
    · intro k _
      rfl
    · rfl
    · exact Nat.le_refl 0
    · rfl
    · rfl
    · rfl
  | n + 1, h =>
    burstStep_inv n (burst n) (by omega)
      (burst_inv n (Nat.le_of_succ_le h))

/-! ### Claims -/

/-- C2: for every WAL file consisting of whole records followed by
trailing bytes shorter than one full record (a record is at least 24
bytes), Initialize truncates the log file exactly at the boundary
recorded before the failed decode — the end of the whole-record region —
and the in-memory WAL cache holds exactly the transactions whose records
decoded with a valid checksum (checksum-mismatched records are kept in
the file but skipped).  Stated for an arbitrary prior WAL struct value
and arbitrary record contents; this is stronger than the claim, which
conditions on Initialize returning successfully. -/
theorem C2_initialize_truncation (prev : WalState) (ts : List Transaction)
    (g : List Nat) (hwf : ∀ t ∈ ts, wfTransaction t) (hg : g.length < 24) :
    (walInitialize prev (serFile ts ++ g)).file = serFile ts ∧
    (walInitialize prev (serFile ts ++ g)).cache =
      (ts.filter (fun t => decide (checkSumOk t))).foldl addCache [] := by
  have hdec := decodeTransaction_none_of_short g hg
  have hfl := serFile_length_ge ts
  have h := walRecover_spec ts ((serFile ts ++ g).length + 1) [] g
    { prev with cache := [], file := serFile ts ++ g } hwf hdec
    (by simp only [List.length_append]; omega)
  simp only [List.nil_append, List.length_nil] at h
  unfold walInitialize
  exact ⟨h.1, h.2.1⟩

set_option maxRecDepth 40000 in
/-- C2 witness: one valid one-entry record followed by three garbage
bytes: the file shrinks to that record, which is the only cached one. -/
theorem C2_witness :
    (walInitialize emptyWal (serFile [txnGood] ++ [1, 2, 3])).file
        = serFile [txnGood] ∧
    (walInitialize emptyWal (serFile [txnGood] ++ [1, 2, 3])).cache
        = ([txnGood].filter (fun t => decide (checkSumOk t))).foldl addCache [] :=
  C2_initialize_truncation emptyWal [txnGood] [1, 2, 3] (by decide) (by decide)

/-- C3: the claim states that flushCheckpoint is total, loading from
disc any WAL-cached page that is absent from the LRU cache.  In the
source, data = entry.data executes before the map-lookup ok flag is
tested, so that case dereferences a nil *CacheEntry and panics; the
reload-from-disc branch below it is dead code.  stateC3 (WAL cache
mentions page 1, LRU map empty — the state of a process that has just
recovered its WAL from disk) makes flushCheckpoint fault instead of
completing. -/
theorem C3_flushCheckpoint_panics :
    (flushCheckpoint stateC3).2 = some DBErr.nilPointerPanic ∧
    (flushCheckpoint stateC3).1 = stateC3 :=
  ⟨rfl, rfl⟩

/-- C4 counterexample: a WAL that has already assigned five transaction
ids keeps next_transaction_id = 5 across clearFromDisc, and the first
transaction appended to the fresh log is assigned id 5, not 0. -/
theorem C4_counterexample :
    (clearFromDisc walAt5).nextTransactionId = 5 ∧
    (appendTransaction (clearFromDisc walAt5) [] ⟨0, 0, [], 0, 0⟩).2 = 5 ∧
    (5 : Nat) ≠ 0 :=
  ⟨rfl, rfl, by decide⟩

/-- C4 (amended): clearFromDisc leaves next_transaction_id unchanged
(Initialize never assigns the field, and the fresh log is empty), so
the first transaction appended to the fresh log is assigned the
pre-clear next_transaction_id. -/
theorem C4_amended_clear_preserves_id (w : WalState)
    (nodes : List (Nat × Node)) (t : PendingTxn) :
    (clearFromDisc w).nextTransactionId = w.nextTransactionId ∧
    (appendTransaction (clearFromDisc w) nodes t).2 = w.nextTransactionId :=
  ⟨rfl, rfl⟩

/-- C4 amended witness at a concrete input. -/
theorem C4_amended_witness :
    (clearFromDisc walAt5).nextTransactionId = walAt5.nextTransactionId ∧
    (appendTransaction (clearFromDisc walAt5) [] ⟨0, 0, [], 0, 0⟩).2
      = walAt5.nextTransactionId :=
  C4_amended_clear_preserves_id walAt5 [] ⟨0, 0, [], 0, 0⟩

/-- C6: the claim says a successful AppendTransaction adds exactly one
cache entry per page id touched.  The source calls addCache(transaction)
once per body entry, and each call walks all body entries again, so a
two-entry transaction (pages 1 and 2) adds two entries to each page's
list.  The id increment, the returned id and the file-size growth do
behave as claimed. -/
theorem C6_appendTransaction_cache_duplication :
    ((alookup (appendTransaction emptyWal heapC6 pendC6).1.cache 1).getD []).length = 2 ∧
    ((alookup (appendTransaction emptyWal heapC6 pendC6).1.cache 2).getD []).length = 2 ∧
    (appendTransaction emptyWal heapC6 pendC6).2 = 0 ∧
    (appendTransaction emptyWal heapC6 pendC6).1.nextTransactionId = 1 :=
  ⟨rfl, rfl, rfl, rfl⟩

/-- C9 (amended): ReadPageData(id) fails iff the stored header checksum
differs from the CRC32 recomputed over the body bytes just read, and the
failure is a checksum-mismatch error carrying the expected (stored) and
found (computed) values; the page id is not part of the error. -/
theorem C9_amended_checksum_iff (disc : Disc) (id : Nat) :
    ((readPageData disc id).2 = none ↔
      (disc id).header.checksum = getChecksum ((disc id).body)) ∧
    (readPageData disc id).2 =
      (if (disc id).header.checksum = getChecksum ((disc id).body) then none
       else some (DBErr.checksumMismatch ((disc id).header.checksum)
         (getChecksum ((disc id).body)))) := by
  unfold readPageData readPageHeader
  by_cases h : (disc id).header.checksum = getChecksum ((disc id).body)
  · simp [h]
  · simp [h]

/-- C9 counterexample: on a disc whose pages 1 and 2 are identically
corrupted, ReadPageData returns equal error values for the two distinct
page ids, so the error cannot carry the page id the claim ascribes to
it. -/
theorem C9_counterexample :
    (readPageData badDisc 1).2 = (readPageData badDisc 2).2 ∧
    (readPageData badDisc 1).2 ≠ none ∧ (1 : Nat) ≠ 2 := by
  have hb : ∀ id : Nat, (readPageData badDisc id).2
      = some (DBErr.checksumMismatch (Nat.succ (getChecksum zeroBody))
          (getChecksum zeroBody)) := by
    intro id
    have hne : ¬ ((badDisc id).header.checksum
        = getChecksum ((badDisc id).body)) :=
      Nat.succ_ne_self (getChecksum zeroBody)
    show (if (badDisc id).header.checksum = getChecksum ((badDisc id).body)
        then ((badDisc id).body, (none : Option DBErr))
        else ((badDisc id).body, some (DBErr.checksumMismatch
          ((badDisc id).header.checksum) (getChecksum ((badDisc id).body))))).2
      = some (DBErr.checksumMismatch (Nat.succ (getChecksum zeroBody))
          (getChecksum zeroBody))
    rw [if_neg hne]
    rfl
  refine ⟨(hb 1).trans (hb 2).symm, ?_, by decide⟩
  rw [hb 1]
  exact fun hcontra => Option.noConfusion hcontra

/-- C10: GetPage on a page whose disk load fails (here: checksum
mismatch) returns the error but still inserts the as-read, unverified
body into the LRU cache under that id — loadPageFromDisc returns early
without the WAL overlay and GetPage calls addCacheData before looking at
the error — so an immediately subsequent GetPage for the id is a cache
hit returning that body with no error.  Stated under the allocation-
counter invariant (heap keys below nextNodeId), which every state the
code builds satisfies. -/
theorem C10_getPage_caches_unverified (s : DBState) (p : Nat) (err : DBErr)
    (hfresh : ∀ k, s.nextNodeId ≤ k → alookup s.nodes k = none)
    (hmiss : alookup s.db p = none)
    (hread : (readPageData s.disc p).2 = some err) :
    (getPage s p).2.2 = some err ∧
    (getPage s p).2.1 = (s.disc p).body ∧
    (alookup (getPage s p).1.db p).isSome = true ∧
    (getPage ((getPage s p).1) p).2.2 = none ∧
    (getPage ((getPage s p).1) p).2.1 = (s.disc p).body := by
  have hload := loadPageFromDisc_err s p err hread
  have hg := getPage_miss s p hmiss
  obtain ⟨_, _, _, _, _, hdb, hnew, _, _⟩ :=
    addCacheData_facts s (loadPageFromDisc s p).1 p hfresh
  have hnode : ((alookup (addCacheData s (loadPageFromDisc s p).1 p).nodes
      s.nextNodeId).getD (⟨fun _ => 0, none, none⟩ : Node)).data
        = (loadPageFromDisc s p).1 := by
    cases ho : alookup (addCacheData s (loadPageFromDisc s p).1 p).nodes
        s.nextNodeId with
    | none => rw [ho] at hnew; simp at hnew
    | some v =>
      rw [ho] at hnew
      exact Option.some.inj hnew
  have hg2 := getPage_hit (addCacheData s (loadPageFromDisc s p).1 p) p
    s.nextNodeId hdb
  refine ⟨?_, ?_, ?_, ?_, ?_⟩
  · rw [hg, hload]
  · rw [hg, hload]
  · rw [hg, hdb]; rfl
  · rw [hg]
    rw [hg2]
  · rw [hg]
    rw [hg2]
    show (nodeGet (addCacheData s (loadPageFromDisc s p).1 p).nodes
      s.nextNodeId).data = (s.disc p).body
    unfold nodeGet
    rw [hnode, hload]

/-- C10 witness: fresh manager over a disc whose every page has a bad
stored checksum; GetPage(1) errors yet caches the body; the second
GetPage(1) silently returns it. -/
theorem C10_witness :
    (getPage (freshState badDisc 10000 32000) 1).2.2
      = some (DBErr.checksumMismatch (Nat.succ (getChecksum zeroBody))
          (getChecksum zeroBody)) ∧
    (getPage (freshState badDisc 10000 32000) 1).2.1
      = ((freshState badDisc 10000 32000).disc 1).body ∧
    (alookup (getPage (freshState badDisc 10000 32000) 1).1.db 1).isSome
      = true ∧
    (getPage ((getPage (freshState badDisc 10000 32000) 1).1) 1).2.2
      = none ∧
    (getPage ((getPage (freshState badDisc 10000 32000) 1).1) 1).2.1
      = ((freshState badDisc 10000 32000).disc 1).body :=
  C10_getPage_caches_unverified (freshState badDisc 10000 32000) 1
    (DBErr.checksumMismatch (Nat.succ (getChecksum zeroBody))
      (getChecksum zeroBody))
    (fun k _ => rfl) rfl
    (by
      have hne : ∀ idx : Nat, ¬ ((badDisc idx).header.checksum
          = getChecksum ((badDisc idx).body)) :=
        fun idx => Nat.succ_ne_self (getChecksum zeroBody)
      have hall : ∀ idx : Nat, (readPageData badDisc idx).2
          = some (DBErr.checksumMismatch (Nat.succ (getChecksum zeroBody))
              (getChecksum zeroBody)) := by
        intro idx
        show (if (badDisc idx).header.checksum
              = getChecksum ((badDisc idx).body)
            then ((badDisc idx).body, (none : Option DBErr))
            else ((badDisc idx).body, some (DBErr.checksumMismatch
              ((badDisc idx).header.checksum)
              (getChecksum ((badDisc idx).body))))).2
          = some (DBErr.checksumMismatch (Nat.succ (getChecksum zeroBody))
              (getChecksum zeroBody))
        rw [if_neg (hne idx)]
        rfl
      exact hall 1)


/-- C7: a WritePages call whose delta list contains an out-of-bounds
delta (after any number of in-bounds ones) returns the out-of-bounds
error for that delta's page, appends no transaction (the whole WAL
struct, log bytes included, is untouched), and applies no delta to any
in-memory page body: every backing array that existed before holds its
old bytes, and every array created by the call holds a plain
disc-plus-WAL-overlay load.  Hypotheses: the WAL is below the checkpoint
threshold (the claim is about the error path, not the orthogonal
checkpoint), reads succeed (an earlier read error would be returned
instead of OutOfBounds), and the allocation-counter invariant. -/
theorem C7_writePages_oob_no_mutation (s : DBState)
    (pre post : List PageDelta) (d : PageDelta)
    (hnocp : s.wal.fileSize < s.checkpointSizeThreshold)
    (hfresh : ∀ k, s.nextNodeId ≤ k → alookup s.nodes k = none)
    (hgood : ∀ q, (readPageData s.disc q).2 = none)
    (hpre : ∀ x ∈ pre, x.offset + x.newData.length ≤ pageBodySize)
    (hd : pageBodySize < d.offset + d.newData.length) :
    (writePages s (pre ++ d :: post)).2.2
      = some (DBErr.outOfBounds d.pageId) ∧
    (writePages s (pre ++ d :: post)).2.1 = 0 ∧
    (writePages s (pre ++ d :: post)).1.wal = s.wal ∧
    (∀ nid nd',
      alookup (writePages s (pre ++ d :: post)).1.nodes nid = some nd' →
      (∃ nd, alookup s.nodes nid = some nd ∧ nd'.data = nd.data) ∨
      (∃ q, nd'.data = (loadPageFromDisc s q).1)) := by
  have hct : checkpointTrigger s = (s, none) := by
    unfold checkpointTrigger
    rw [if_neg (not_le.mpr hnocp)]
  have hinv0 : BuildInv s s :=
    ⟨rfl, rfl, hfresh, fun nid nd' h1 => Or.inl ⟨nd', h1, rfl⟩⟩
  obtain ⟨s1, acc1, heq, hinv1⟩ :=
    buildLoop_oob s hgood d hd pre post s [] hinv0 hpre
  have hwp : writePages s (pre ++ d :: post)
      = (s1, 0, some (DBErr.outOfBounds d.pageId)) := by
    simp only [writePages, hct, heq]
  rw [hwp]
  exact ⟨rfl, rfl, hinv1.2.1, hinv1.2.2.2⟩

set_option maxRecDepth 4000 in
/-- C7 witness: one delta at offset 4087 with 4 bytes on a fresh
manager (4087 + 4 = 4091 > 4090). -/
theorem C7_witness :
    (writePages (freshState goodDisc 10000 32000)
        ([] ++ (⟨1, 4087, [0, 0, 0, 0]⟩ : PageDelta) :: [])).2.2
      = some (DBErr.outOfBounds (⟨1, 4087, [0, 0, 0, 0]⟩ : PageDelta).pageId) ∧
    (writePages (freshState goodDisc 10000 32000)
        ([] ++ (⟨1, 4087, [0, 0, 0, 0]⟩ : PageDelta) :: [])).2.1 = 0 ∧
    (writePages (freshState goodDisc 10000 32000)
        ([] ++ (⟨1, 4087, [0, 0, 0, 0]⟩ : PageDelta) :: [])).1.wal
      = (freshState goodDisc 10000 32000).wal ∧
    (∀ nid nd',
      alookup (writePages (freshState goodDisc 10000 32000)
        ([] ++ (⟨1, 4087, [0, 0, 0, 0]⟩ : PageDelta) :: [])).1.nodes nid
          = some nd' →
      (∃ nd, alookup (freshState goodDisc 10000 32000).nodes nid = some nd ∧
        nd'.data = nd.data) ∨
      (∃ q, nd'.data
        = (loadPageFromDisc (freshState goodDisc 10000 32000) q).1)) :=
  by
  have h1 : (freshState goodDisc 10000 32000).wal.fileSize
      < (freshState goodDisc 10000 32000).checkpointSizeThreshold := by decide
  have h2 : ∀ k, (freshState goodDisc 10000 32000).nextNodeId ≤ k →
      alookup (freshState goodDisc 10000 32000).nodes k = none :=
    fun k _ => rfl
  have h3 : ∀ q,
      (readPageData (freshState goodDisc 10000 32000).disc q).2 = none :=
    fun q => congrArg Prod.snd (readPageData_valid goodDisc q rfl)
  have h4 : ∀ x ∈ ([] : List PageDelta),
      x.offset + x.newData.length ≤ pageBodySize :=
    fun x hx => absurd hx (List.not_mem_nil x)
  have h5 : pageBodySize < (⟨1, 4087, [0, 0, 0, 0]⟩ : PageDelta).offset
      + (⟨1, 4087, [0, 0, 0, 0]⟩ : PageDelta).newData.length := by decide
  exact C7_writePages_oob_no_mutation (freshState goodDisc 10000 32000)
    [] [] ⟨1, 4087, [0, 0, 0, 0]⟩ h1 h2 h3 h4 h5


/-- C8: the claim says that after touching k distinct pages with
k greater than the capacity, the first page is evicted and the last
retained.  Counter-run (capacity 2): from a fresh manager, GetPage 7,
GetPage 1 fill the cache; then the distinct pages 1, 2, 3 are touched in
order (k = 3 > 2).  The hit on page 1 promotes the tail without updating
the tail pointer (makeHead never writes tail), corrupting the list, and
the subsequent evictions remove pages 7 and then 2 instead of reaching
page 1; afterwards page 1 is still in the map (GetPage 1 is an
error-free hit) while page 2 — more recently used than 1 — is gone.
With a correct LRU, page 1 would have been evicted. -/
theorem C8_promoted_tail_never_evicted :
    (alookup stateC8.db 1).isSome = true ∧
    alookup stateC8.db 2 = none ∧
    (alookup stateC8.db 3).isSome = true ∧
    (getPage stateC8 1).2.2 = none := by
  have e1 : touch (freshState goodDisc 10000 2) 7
      = ⟨goodDisc, [(0, ⟨zeroBody, none, none⟩)], 1, [(7, 0)],
          some 0, some 0, emptyWal, 2, 10000⟩ := by
    rw [touch_miss (freshState goodDisc 10000 2) 7 rfl rfl rfl]
    rfl
  have e2 : touch (⟨goodDisc, [(0, ⟨zeroBody, none, none⟩)], 1, [(7, 0)],
        some 0, some 0, emptyWal, 2, 10000⟩ : DBState) 1
      = ⟨goodDisc, [(0, ⟨zeroBody, some 1, none⟩),
          (1, ⟨zeroBody, none, some 0⟩)], 2, [(7, 0), (1, 1)],
          some 1, some 0, emptyWal, 2, 10000⟩ := by
    rw [touch_miss (⟨goodDisc, [(0, ⟨zeroBody, none, none⟩)], 1, [(7, 0)],
      some 0, some 0, emptyWal, 2, 10000⟩ : DBState) 1 rfl rfl rfl]
    rfl
  have e3 : touch (⟨goodDisc, [(0, ⟨zeroBody, some 1, none⟩),
        (1, ⟨zeroBody, none, some 0⟩)], 2, [(7, 0), (1, 1)],
        some 1, some 0, emptyWal, 2, 10000⟩ : DBState) 1
      = ⟨goodDisc, [(0, ⟨zeroBody, none, none⟩),
          (1, ⟨zeroBody, none, some 1⟩)], 2, [(7, 0), (1, 1)],
          some 1, some 0, emptyWal, 2, 10000⟩ := by
    rw [touch_hit (⟨goodDisc, [(0, ⟨zeroBody, some 1, none⟩),
      (1, ⟨zeroBody, none, some 0⟩)], 2, [(7, 0), (1, 1)],
      some 1, some 0, emptyWal, 2, 10000⟩ : DBState) 1 1 rfl]
    rfl
  have e4 : touch (⟨goodDisc, [(0, ⟨zeroBody, none, none⟩),
        (1, ⟨zeroBody, none, some 1⟩)], 2, [(7, 0), (1, 1)],
        some 1, some 0, emptyWal, 2, 10000⟩ : DBState) 2
      = ⟨goodDisc, [(0, ⟨zeroBody, none, none⟩),
          (1, ⟨zeroBody, none, some 1⟩), (2, ⟨zeroBody, none, none⟩)], 3,
          [(1, 1), (2, 2)], some 2, some 2, emptyWal, 2, 10000⟩ := by
    rw [touch_miss (⟨goodDisc, [(0, ⟨zeroBody, none, none⟩),
      (1, ⟨zeroBody, none, some 1⟩)], 2, [(7, 0), (1, 1)],
      some 1, some 0, emptyWal, 2, 10000⟩ : DBState) 2 rfl rfl rfl]
    rfl
  have e5 : touch (⟨goodDisc, [(0, ⟨zeroBody, none, none⟩),
        (1, ⟨zeroBody, none, some 1⟩), (2, ⟨zeroBody, none, none⟩)], 3,
        [(1, 1), (2, 2)], some 2, some 2, emptyWal, 2, 10000⟩ : DBState) 3
      = ⟨goodDisc, [(0, ⟨zeroBody, none, none⟩),
          (1, ⟨zeroBody, none, some 1⟩), (2, ⟨zeroBody, none, none⟩),
          (3, ⟨zeroBody, none, none⟩)], 4,
          [(1, 1), (3, 3)], some 3, some 3, emptyWal, 2, 10000⟩ := by
    rw [touch_miss (⟨goodDisc, [(0, ⟨zeroBody, none, none⟩),
      (1, ⟨zeroBody, none, some 1⟩), (2, ⟨zeroBody, none, none⟩)], 3,
      [(1, 1), (2, 2)], some 2, some 2, emptyWal, 2, 10000⟩ : DBState) 3 rfl rfl rfl]
    rfl
  have hs : stateC8
      = ⟨goodDisc, [(0, ⟨zeroBody, none, none⟩),
          (1, ⟨zeroBody, none, some 1⟩), (2, ⟨zeroBody, none, none⟩),
          (3, ⟨zeroBody, none, none⟩)], 4,
          [(1, 1), (3, 3)], some 3, some 3, emptyWal, 2, 10000⟩ := by
    rw [stateC8, e1, e2, e3, e4, e5]
  refine ⟨?_, ?_, ?_, ?_⟩
  · rw [hs]; rfl
  · rw [hs]; rfl
  · rw [hs]; rfl
  · have hhit : alookup stateC8.db 1 = some 1 := by rw [hs]; rfl
    rw [getPage_hit stateC8 1 1 hhit]

set_option maxRecDepth 8000 in
/-- C1: the claim says the appended record carries, for its delta, an
old-data field equal to the cached page bytes at the delta range as they
were when the transaction was built, before the deltas were applied.
Counter-run: one successful WritePages of bytes 5,6,7,8 at offset 0 of
page 1, whose bytes there were 1,2,3,4.  The record that reaches the log
(decoded back here) stores old-data 5,6,7,8 — the post-change bytes —
because the pending entry's OldData slice aliases the live page array
that applyDelta mutates before the record is serialised; the pre-change
bytes 1,2,3,4 are not what it carries. -/
theorem C1_old_data_post_image :
    runC1.2.2 = none ∧
    decodeTransaction runC1.1.wal.file = some (matC1, []) ∧
    matC1.body.map PageEntry.oldData = [[5, 6, 7, 8]] ∧
    regionRead bodyC1 0 4 = [1, 2, 3, 4] := by
  have hdisc : (freshState discC1 10000 32000).disc 1
      = (⟨⟨0, 1, getChecksum bodyC1⟩, bodyC1⟩ : DiscPage) := rfl
  have hd1 : ((freshState discC1 10000 32000).disc 1).header.checksum
      = getChecksum (((freshState discC1 10000 32000).disc 1).body) := by
    rw [hdisc]
  have hload : loadPageFromDisc (freshState discC1 10000 32000) 1
      = (bodyC1, none) :=
    loadPageFromDisc_valid (freshState discC1 10000 32000) 1 hd1 rfl
  have hb1 : buildLoop (freshState discC1 10000 32000) [] [deltaC1]
      = (⟨discC1, [(0, ⟨bodyC1, none, none⟩)], 1, [(1, 0)],
          some 0, some 0, emptyWal, 32000, 10000⟩,
         [⟨1, 0, 4, 0, [5, 6, 7, 8]⟩], none) := by
    rw [buildLoop_miss_ok (freshState discC1 10000 32000) [] deltaC1 []
      bodyC1 rfl hload (by decide)]
    rfl
  have happly : applyLoop (⟨discC1, [(0, ⟨bodyC1, none, none⟩)], 1,
      [(1, 0)], some 0, some 0, emptyWal, 32000, 10000⟩ : DBState)
      [deltaC1]
      = ⟨discC1, [(0, ⟨writeRegion bodyC1 0 [5, 6, 7, 8], none, none⟩)],
          1, [(1, 0)], some 0, some 0, emptyWal, 32000, 10000⟩ := rfl
  have happ : appendTransaction emptyWal
      [(0, ⟨writeRegion bodyC1 0 [5, 6, 7, 8], none, none⟩)]
      ⟨0, [deltaC1].length % 2 ^ 32, [⟨1, 0, 4, 0, [5, 6, 7, 8]⟩], 0, 0⟩
      = (⟨[(1, [⟨0, 1, [⟨1, 0, 4, [5, 6, 7, 8], [5, 6, 7, 8]⟩], 0, 0⟩])],
          1, 0 + (serTransaction matC1).length,
          [] ++ serTransaction matC1⟩, 0) := rfl
  have hrun : runC1
      = ({ (⟨discC1,
            [(0, ⟨writeRegion bodyC1 0 [5, 6, 7, 8], none, none⟩)],
            1, [(1, 0)], some 0, some 0, emptyWal, 32000, 10000⟩
            : DBState) with
          wal := ⟨[(1, [⟨0, 1, [⟨1, 0, 4, [5, 6, 7, 8], [5, 6, 7, 8]⟩],
                      0, 0⟩])],
                  1, 0 + (serTransaction matC1).length,
                  [] ++ serTransaction matC1⟩ }, 0, none) :=
    writePages_ok (freshState discC1 10000 32000)
      (freshState discC1 10000 32000)
      (⟨discC1, [(0, ⟨bodyC1, none, none⟩)], 1, [(1, 0)],
        some 0, some 0, emptyWal, 32000, 10000⟩)
      (⟨discC1, [(0, ⟨writeRegion bodyC1 0 [5, 6, 7, 8], none, none⟩)],
        1, [(1, 0)], some 0, some 0, emptyWal, 32000, 10000⟩)
      [deltaC1] [⟨1, 0, 4, 0, [5, 6, 7, 8]⟩] _ 0 rfl hb1 happly happ
  have hwf : wfTransaction matC1 := by
    refine ⟨by decide, by decide, rfl, by decide, crc32_lt payloadC1, ?_⟩
    intro e he
    have he2 : e = ⟨1, 0, 4, [5, 6, 7, 8], [5, 6, 7, 8]⟩ := by
      simpa [matC1] using he
    subst he2
    exact ⟨by decide, by decide, by decide, rfl, rfl⟩
  refine ⟨?_, ?_, rfl, by decide⟩
  · rw [hrun]
  · rw [hrun]
    show decodeTransaction ([] ++ serTransaction matC1) = some (matC1, [])
    rw [List.nil_append]
    have hdec := decodeTransaction_of_append matC1 [] hwf
    rw [List.append_nil] at hdec
    exact hdec

/-- C5: the claim says that after the ten-write burst (threshold 10000)
a checkpoint fires before some write and the WAL's recorded file_size
ends strictly below 10000.  The trigger condition does hold from the
third write on (file_size is 16440 ≥ 10000 after two writes) and the
log file really is rotated — it holds exactly one 8220-byte record at
the end — but Initialize/clearFromDisc never reset the in-memory
fileSize counter, so the recorded file_size ends at 82200, not below
10000. -/
theorem C5_file_size_not_reset :
    10000 ≤ (burst 2).wal.fileSize ∧
    (burst 10).wal.file.length = 8220 ∧
    (burst 10).wal.fileSize = 82200 ∧
    ¬ (burst 10).wal.fileSize < 10000 := by
  obtain ⟨h1a, h2a, h3a, h4a, hfs10, h6a, h7a, h8a, hfile10⟩ :=
    burst_inv 10 (Nat.le_refl 10)
  obtain ⟨h1b, h2b, h3b, h4b, hfs2, h6b, h7b, h8b, h9b⟩ :=
    burst_inv 2 (by omega)
  refine ⟨?_, ?_, ?_, ?_⟩
  · rw [hfs2]
    norm_num
  · rw [hfile10]
    rfl
  · rw [hfs10]
  · rw [hfs10]
    norm_num

end TinyRDB
